import Mathlib

/-! # cue2vorbis: tag resolution of `print_track` and the driver `main`

A shallow embedding of `src/cue2vorbis.c`.  The program reads a parsed CUE sheet
through the query interface of libcue (`cd_get_track`, `cd_get_cdtext`,
`cd_get_rem`, `track_get_cdtext`, `track_get_rem`, `track_get_isrc`,
`cdtext_get`, `rem_get`) and prints Vorbis comment lines with `printf`.

* A C pointer that may be `NULL` is an `Option`.
* The C `int` arguments of `print_track` are `Int`; the function does no
  arithmetic on them, it only prints them with `%d`.
* Standard output is the list of `printf` calls made, each recorded as the pair
  of the key printed before `=` and the text printed after it (`TagLine`);
  `TagLine.render` gives the bytes of the call.
* Messages to standard error are not part of the model.
* A run of `main` takes its argument vector and an environment (`Env`: what
  `fopen` and `cue_parse_file` return); it leaves the lines printed, the calls
  of `print_track` made and the exit code (`MainRun`).  The release of the disc
  and of the file at `cleanup` is not part of the model.
-/

namespace Cue2Vorbis

/-! ## The libcue interface -/

/-- Modelled from the spec: the `Pti` enumeration of libcue (libcue.h is not
among the sources), restricted to the CD-TEXT identifiers the program queries. -/
inductive Pti where
  | PTI_TITLE
  | PTI_PERFORMER
  | PTI_SONGWRITER
  | PTI_COMPOSER
  | PTI_ARRANGER
  | PTI_MESSAGE
  | PTI_GENRE
  | PTI_UPC_ISRC
  deriving DecidableEq, Repr

/-- Modelled from the spec: the `RemType` enumeration of libcue (libcue.h is not
among the sources), restricted to the REM identifiers the program queries. -/
inductive RemType where
  | REM_DATE
  | REM_REPLAYGAIN_ALBUM_GAIN
  | REM_REPLAYGAIN_ALBUM_PEAK
  | REM_REPLAYGAIN_TRACK_GAIN
  | REM_REPLAYGAIN_TRACK_PEAK
  deriving DecidableEq, Repr

/-- Modelled from the spec: a libcue `Cdtext` object, seen through `cdtext_get`:
each identifier has a string or is missing (`NULL`). -/
structure Cdtext where
  field : Pti → Option String

/-- Modelled from the spec: a libcue `Rem` object, seen through `rem_get`. -/
structure Rem where
  field : RemType → Option String

/-- Modelled from the spec: a libcue `Track`, seen through `track_get_cdtext`,
`track_get_rem` and `track_get_isrc`, each of which may return `NULL`. -/
structure Track where
  cdtext : Option Cdtext
  rem : Option Rem
  isrc : Option String

/-- Modelled from the spec: a libcue `Cd`, seen through `cd_get_ntrack`,
`cd_get_track`, `cd_get_cdtext` and `cd_get_rem`.  What `cd_get_track` returns
for an index is left to the library: it is a parameter of the disc. -/
structure Cd where
  ntrack : Int
  track : Int → Option Track
  cdtext : Option Cdtext
  rem : Option Rem

def cd_get_ntrack (cd : Cd) : Int := cd.ntrack

def cd_get_track (cd : Cd) (i : Int) : Option Track := cd.track i

def cd_get_cdtext (cd : Cd) : Option Cdtext := cd.cdtext

def cd_get_rem (cd : Cd) : Option Rem := cd.rem

def track_get_cdtext (track : Track) : Option Cdtext := track.cdtext

def track_get_rem (track : Track) : Option Rem := track.rem

def track_get_isrc (track : Track) : Option String := track.isrc

def cdtext_get (pti : Pti) (cdtext : Cdtext) : Option String := cdtext.field pti

def rem_get (rem : RemType) (r : Rem) : Option String := r.field rem

/-! ## The tables of `cue2vorbis.c` -/

/-- The struct `PtiNamed`: a libcue identifier and the tag name to print. -/
structure PtiNamed where
  pti : Pti
  name : String

/-- The struct `RemNamed`: a libcue identifier and the tag name to print. -/
structure RemNamed where
  rem : RemType
  name : String

/-- Common tags for track and album. -/
def g_pti_array : List PtiNamed :=
  [ ⟨.PTI_SONGWRITER, "LYRICIST"⟩,
    ⟨.PTI_COMPOSER, "COMPOSER"⟩,
    ⟨.PTI_ARRANGER, "ARRANGER"⟩,
    ⟨.PTI_MESSAGE, "COMMENT"⟩,
    ⟨.PTI_GENRE, "GENRE"⟩ ]

/-- Common rems for track and album. -/
def g_rem_array : List RemNamed :=
  [ ⟨.REM_DATE, "DATE"⟩,
    ⟨.REM_REPLAYGAIN_ALBUM_GAIN, "REPLAYGAIN_ALBUM_GAIN"⟩,
    ⟨.REM_REPLAYGAIN_ALBUM_PEAK, "REPLAYGAIN_ALBUM_PEAK"⟩,
    ⟨.REM_REPLAYGAIN_TRACK_GAIN, "REPLAYGAIN_TRACK_GAIN"⟩,
    ⟨.REM_REPLAYGAIN_TRACK_PEAK, "REPLAYGAIN_TRACK_PEAK"⟩ ]

/-! ## Output -/

/-- One call `printf("KEY=%s\n", text)`: the key and the text after `=`. -/
structure TagLine where
  key : String
  value : String
  deriving DecidableEq, Repr

/-- The bytes one `printf` call writes. -/
def TagLine.render (l : TagLine) : String := l.key ++ "=" ++ l.value ++ "\n"

/-- The conversion `%d` of `printf`: decimal digits, with `-` for a negative number. -/
def fmt_d (n : Int) : String := toString n

/-- What a call of `print_track` leaves behind: the `printf` calls made, in
order, and the value returned. -/
structure Run where
  out : List TagLine
  ret : Int
  deriving DecidableEq, Repr

/-- Standard output of a run, as text. -/
def Run.stdout (r : Run) : String := String.join (r.out.map TagLine.render)

/-- The statement `if (text) printf("NAME=%s\n", text);`. -/
def print_if (name : String) (text : Option String) : List TagLine :=
  match text with
  | some s => [⟨name, s⟩]
  | none => []

/-- Body of the loop over `g_pti_array` (lines 121-130). -/
def print_pti (cue_track_cdtext cue_cd_cdtext : Cdtext) (e : PtiNamed) : List TagLine :=
  match cdtext_get e.pti cue_track_cdtext with
  | some text => [⟨e.name, text⟩]
  | none =>
    -- No metadata for track, try CD.
    match cdtext_get e.pti cue_cd_cdtext with
    | some text => [⟨e.name, text⟩]
    | none => []

/-- Body of the loop over `g_rem_array` (lines 135-144). -/
def print_rem (cue_track_rem cue_cd_rem : Rem) (e : RemNamed) : List TagLine :=
  match rem_get e.rem cue_track_rem with
  | some text => [⟨e.name, text⟩]
  | none =>
    -- No metadata for track, try CD.
    match rem_get e.rem cue_cd_rem with
    | some text => [⟨e.name, text⟩]
    | none => []

/-- The ISRC statement (lines 148-154): `text` is the CD-TEXT UPC_ISRC of the
track, replaced by `track_get_isrc` when it is `NULL`. -/
def print_isrc (cue_track : Track) (cue_track_cdtext : Cdtext) : List TagLine :=
  let text := cdtext_get .PTI_UPC_ISRC cue_track_cdtext
  let text := match text with
    | some s => some s
    | none => track_get_isrc cue_track
  print_if "ISRC" text

/-- The exit through `onerror`: nothing was printed, `ret_code = 1`. -/
def onerror : Run := ⟨[], 1⟩

/-- The function `print_track` of `cue2vorbis.c` (lines 47-169). -/
def print_track (track_number track_count : Int) (cue_cd : Cd) : Run :=
  match cd_get_track cue_cd track_number with
  | none => onerror
  | some cue_track =>
  -- Get CD CDTEXT.
  match cd_get_cdtext cue_cd with
  | none => onerror
  | some cue_cd_cdtext =>
  -- Get CD REM.
  match cd_get_rem cue_cd with
  | none => onerror
  | some cue_cd_rem =>
  -- Get track CDTEXT.
  match track_get_cdtext cue_track with
  | none => onerror
  | some cue_track_cdtext =>
  -- Get track REM.
  match track_get_rem cue_track with
  | none => onerror
  | some cue_track_rem =>
    -- Print TRACK.
    let out : List TagLine := [⟨"TRACKNUMBER", fmt_d track_number⟩]
    let out := out ++ [⟨"TRACKTOTAL", fmt_d track_count⟩]
    -- Print TITLE.
    let out := out ++ print_if "TITLE" (cdtext_get .PTI_TITLE cue_track_cdtext)
    -- Print ALBUM.
    let out := out ++ print_if "ALBUM" (cdtext_get .PTI_TITLE cue_cd_cdtext)
    -- Print ARTIST.
    let out := out ++ print_if "ARTIST" (cdtext_get .PTI_PERFORMER cue_track_cdtext)
    -- Print ALBUMARTIST.
    let out := out ++ print_if "ALBUMARTIST" (cdtext_get .PTI_PERFORMER cue_cd_cdtext)
    -- Print CDTEXT metadata.
    let out := g_pti_array.foldl
      (fun out e => out ++ print_pti cue_track_cdtext cue_cd_cdtext e) out
    -- Print REM metadata.
    let out := g_rem_array.foldl
      (fun out e => out ++ print_rem cue_track_rem cue_cd_rem e) out
    -- Print ISRC.
    let out := out ++ print_isrc cue_track cue_track_cdtext
    -- Print EAN/UPN.
    let out := out ++ print_if "EAN/UPN" (cdtext_get .PTI_UPC_ISRC cue_cd_cdtext)
    ⟨out, 0⟩

/-! ## The driver -/

/-- The C classification `isspace` in the "C" locale: space (32) and the
characters 9 to 13 (tab, newline, vertical tab, form feed, carriage return). -/
def isspace (c : Char) : Bool :=
  c.toNat = 32 || (9 ≤ c.toNat && c.toNat ≤ 13)

/-- The value of the longest run of decimal digits at the head of a text, most
significant digit first, starting from `acc`. -/
def digits_value (acc : Nat) : List Char → Nat
  | [] => acc
  | c :: cs => if c.isDigit then digits_value (acc * 10 + (c.toNat - 48)) cs else acc

/-- The largest value of the C type `long` (64 bits). -/
def LONG_MAX : Int := 9223372036854775807

/-- The smallest value of the C type `long` (64 bits). -/
def LONG_MIN : Int := -9223372036854775808

/-- The largest value of the C type `int` (32 bits). -/
def INT_MAX : Int := 2147483647

/-- The number a text denotes for `strtol` in base 10, before any range check:
skip leading white space, read an optional sign (`-` is character 45, `+` is
43), then the longest run of decimal digits; whatever follows is ignored, and
the value is 0 when there is no digit. -/
def strtol_value (s : String) : Int :=
  match s.toList.dropWhile isspace with
  | [] => 0
  | c :: cs =>
    if c.toNat = 45 then -((digits_value 0 cs : Nat) : Int)
    else if c.toNat = 43 then ((digits_value 0 cs : Nat) : Int)
    else ((digits_value 0 (c :: cs) : Nat) : Int)

/-- The C library call `strtol(nptr, NULL, 10)` (libc is not among the sources):
the number read, brought to `LONG_MAX` or `LONG_MIN` when it does not fit a
`long`. -/
def strtol (s : String) : Int :=
  let v := strtol_value s
  if v > LONG_MAX then LONG_MAX
  else if v < LONG_MIN then LONG_MIN
  else v

/-- The conversion `(int) x` of a `long` to the 32-bit `int`: the value modulo
`2 ^ 32`, in the range from `-2 ^ 31` to `2 ^ 31 - 1`. -/
def int_of_long (x : Int) : Int :=
  (x + 2147483648) % 4294967296 - 2147483648

/-- The C library function `atoi` (libc is not among the sources), as the GNU C
library defines it: `(int) strtol(nptr, NULL, 10)`.  The source stores the
result in `int track_arg`.  For a number that fits an `int` this is the number;
for a larger one the C standard leaves the result open, and this is what the
library returns ("4294967297" gives 1, "2147483648" gives `-2147483648`). -/
def atoi (s : String) : Int :=
  int_of_long (strtol s)

/-- An open file, as `fopen` returns it: the text it gives access to. -/
structure FILE where
  content : String

/-- What a run of the program finds outside it: the files `fopen` can open, and
what `cue_parse_file` of libcue makes of an open file (`NULL` is `none`). -/
structure Env where
  fopen : String → Option FILE
  cue_parse_file : FILE → Option Cd

/-- What a run of `main` leaves behind: the `printf` calls made, the calls of
`print_track` made (by track number, in order), and the exit code. -/
structure MainRun where
  out : List TagLine
  calls : List Int
  ret : Int
  deriving DecidableEq, Repr

/-- The exit of `main` through `onerror` before any track was printed. -/
def main_onerror : MainRun := ⟨[], [], 1⟩

/-- The values `i` takes in `for (int i = 1; i <= track_count; ++i)`. -/
def track_indices (track_count : Int) : List Int :=
  (List.range' 1 track_count.toNat).map Int.ofNat

/-- The loop that prints all tracks (lines 239-243), over the indices still to
visit: the first call of `print_track` that returns non-zero ends the run
through `onerror`. -/
def print_all (track_count : Int) (cue_cd : Cd) : List Int → MainRun
  | [] => ⟨[], [], 0⟩
  | i :: rest =>
    let r := print_track i track_count cue_cd
    if r.ret ≠ 0 then ⟨r.out, [i], 1⟩
    else
      let m := print_all track_count cue_cd rest
      ⟨r.out ++ m.out, i :: m.calls, m.ret⟩

/-- The function `main` of `cue2vorbis.c` (lines 182-261); `argv` holds the
program name and the arguments, `argc` is its length. -/
def main (env : Env) (argv : List String) : MainRun :=
  let argc : Int := argv.length
  if argc < 2 ∨ argc > 3 then main_onerror
  else
    let cue_fn := argv.getD 1 ""
    -- Argument (optional): track number.
    let track_arg : Int := if argc > 2 then atoi (argv.getD 2 "") else 0
    if argc > 2 ∧ track_arg = 0 then main_onerror
    else
      match env.fopen cue_fn with
      | none => main_onerror
      | some cue_file =>
      match env.cue_parse_file cue_file with
      | none => main_onerror
      | some cue_cd =>
        let track_count := cd_get_ntrack cue_cd
        if track_count = 0 then main_onerror
        else if track_arg > track_count then main_onerror
        else if track_arg ≠ 0 then
          let r := print_track track_arg track_count cue_cd
          ⟨r.out, [track_arg], if r.ret ≠ 0 then 1 else 0⟩
        else
          -- Print all tracks.
          print_all track_count cue_cd (track_indices track_count)

/-! ## The query interface of the specification

The lookups the specification speaks of (`track_field`, `disc_field`, ...),
written with the libcue calls `print_track` makes. -/

/-- The CD-TEXT field of track `i`, if the track, its CD-TEXT block and the field exist. -/
def track_field (cd : Cd) (i : Int) (pti : Pti) : Option String :=
  (cd_get_track cd i).bind fun t => (track_get_cdtext t).bind fun c => cdtext_get pti c

/-- The REM field of track `i`. -/
def track_rem (cd : Cd) (i : Int) (rem : RemType) : Option String :=
  (cd_get_track cd i).bind fun t => (track_get_rem t).bind fun r => rem_get rem r

/-- The dedicated ISRC attribute of track `i`. -/
def track_isrc (cd : Cd) (i : Int) : Option String :=
  (cd_get_track cd i).bind fun t => track_get_isrc t

/-- The CD-TEXT field of the disc. -/
def disc_field (cd : Cd) (pti : Pti) : Option String :=
  (cd_get_cdtext cd).bind fun c => cdtext_get pti c

/-- The REM field of the disc. -/
def disc_rem (cd : Cd) (rem : RemType) : Option String :=
  (cd_get_rem cd).bind fun r => rem_get rem r

/-- The five structure lookups at the head of `print_track` all return an object. -/
def lookups_ok (cd : Cd) (i : Int) : Prop :=
  ∃ t, cd_get_track cd i = some t ∧ (cd_get_cdtext cd).isSome ∧ (cd_get_rem cd).isSome ∧
    (track_get_cdtext t).isSome ∧ (track_get_rem t).isSome

/-- The source of a row of the fallback group: a CD-TEXT identifier or a REM identifier. -/
inductive FieldSource where
  | cdtext (pti : Pti)
  | rem (rem : RemType)
  deriving DecidableEq, Repr

/-- A row of the fallback group: the key printed and the field that supplies it. -/
structure FallbackRow where
  key : String
  source : FieldSource
  deriving DecidableEq, Repr

/-- The rows of the fallback group, read off `g_pti_array` and `g_rem_array`. -/
def fallback_rows : List FallbackRow :=
  g_pti_array.map (fun e => ⟨e.name, .cdtext e.pti⟩) ++
    g_rem_array.map (fun e => ⟨e.name, .rem e.rem⟩)

/-- The value of a source at track scope. -/
def track_scope (cd : Cd) (i : Int) : FieldSource → Option String
  | .cdtext pti => track_field cd i pti
  | .rem rem => track_rem cd i rem

/-- The value of a source at disc scope. -/
def disc_scope (cd : Cd) : FieldSource → Option String
  | .cdtext pti => disc_field cd pti
  | .rem rem => disc_rem cd rem

/-- The lines of an output that carry a given key. -/
def lines_with (key : String) (out : List TagLine) : List TagLine :=
  out.filter fun l => l.key = key

/-- The keys of an output, in the order printed. -/
def keys_of (out : List TagLine) : List String := out.map TagLine.key

/-- The fixed list of keys, in the order of the statements of `print_track`. -/
def key_order : List String :=
  [ "TRACKNUMBER", "TRACKTOTAL", "TITLE", "ALBUM", "ARTIST", "ALBUMARTIST",
    "LYRICIST", "COMPOSER", "ARRANGER", "COMMENT", "GENRE", "DATE",
    "REPLAYGAIN_ALBUM_GAIN", "REPLAYGAIN_ALBUM_PEAK", "REPLAYGAIN_TRACK_GAIN",
    "REPLAYGAIN_TRACK_PEAK", "ISRC", "EAN/UPN" ]

/-- The concatenation of the blocks `print_track` prints for a list of track
numbers, in the order of the list. -/
def blocks (track_count : Int) (cd : Cd) (l : List Int) : List TagLine :=
  (l.map fun i => (print_track i track_count cd).out).flatten

/-- The conditions under which the specification has `main` exit with 1: the
argument count is wrong, the track-number argument converts to 0, the file
cannot be opened, the CUE sheet cannot be parsed, the disc has no track, the
requested track number exceeds the track count, or a call of `print_track` that
`main` made returned non-zero. -/
def exit_one_condition (env : Env) (argv : List String) : Prop :=
  (argv.length < 2 ∨ argv.length > 3) ∨
  (argv.length = 3 ∧ atoi (argv.getD 2 "") = 0) ∨
  env.fopen (argv.getD 1 "") = none ∨
  (∃ f, env.fopen (argv.getD 1 "") = some f ∧ env.cue_parse_file f = none) ∨
  (∃ f cd, env.fopen (argv.getD 1 "") = some f ∧ env.cue_parse_file f = some cd ∧
    (cd_get_ntrack cd = 0 ∨
     (argv.length = 3 ∧ atoi (argv.getD 2 "") > cd_get_ntrack cd) ∨
     ∃ i ∈ (main env argv).calls, (print_track i (cd_get_ntrack cd) cd).ret ≠ 0))

/-- At least one of the five structure lookups at the head of `print_track`
returns `NULL`; the two lookups on the track need the track. -/
def lookup_missing (cd : Cd) (i : Int) : Prop :=
  cd_get_track cd i = none ∨ cd_get_cdtext cd = none ∨ cd_get_rem cd = none ∨
  ∃ t, cd_get_track cd i = some t ∧ (track_get_cdtext t = none ∨ track_get_rem t = none)

/-- The text is the decimal notation of a positive integer: digits only, at
least one, of a value that is not zero. -/
def positive_decimal (s : String) : Prop :=
  s.toList ≠ [] ∧ s.toList.all Char.isDigit = true ∧ 0 < digits_value 0 s.toList

/-- Two discs agree at disc scope: the CD-TEXT and REM blocks are there on both
or on neither, and every CD-TEXT and REM field of the disc has the same value. -/
def same_disc_scope (cd1 cd2 : Cd) : Prop :=
  (cd_get_cdtext cd1).isSome = (cd_get_cdtext cd2).isSome ∧
  (cd_get_rem cd1).isSome = (cd_get_rem cd2).isSome ∧
  (∀ p, disc_field cd1 p = disc_field cd2 p) ∧
  (∀ r, disc_rem cd1 r = disc_rem cd2 r)

/-- Two discs have the same structure at track `i`: the track, its CD-TEXT
block and its REM block are there on both or on neither. -/
def same_track_structure (cd1 cd2 : Cd) (i : Int) : Prop :=
  (cd_get_track cd1 i).isSome = (cd_get_track cd2 i).isSome ∧
  ((cd_get_track cd1 i).bind track_get_cdtext).isSome =
    ((cd_get_track cd2 i).bind track_get_cdtext).isSome ∧
  ((cd_get_track cd1 i).bind track_get_rem).isSome =
    ((cd_get_track cd2 i).bind track_get_rem).isSome

/-- Two discs agree on the data of track `i`: every CD-TEXT field, every REM
field and the ISRC attribute of the track have the same value. -/
def same_track_fields (cd1 cd2 : Cd) (i : Int) : Prop :=
  (∀ p, track_field cd1 i p = track_field cd2 i p) ∧
  (∀ r, track_rem cd1 i r = track_rem cd2 i r) ∧
  track_isrc cd1 i = track_isrc cd2 i

/-! ## Sample discs -/

/-- A CD-TEXT block with no field. -/
def cdtext_empty : Cdtext := ⟨fun _ => none⟩

/-- A REM block with no field. -/
def rem_empty : Rem := ⟨fun _ => none⟩

/-- A CD-TEXT block given by a list of fields; the first entry for an identifier counts. -/
def cdtext_of (l : List (Pti × String)) : Cdtext :=
  ⟨fun p => (l.find? fun e => e.1 = p).map Prod.snd⟩

/-- A REM block given by a list of fields. -/
def rem_of (l : List (RemType × String)) : Rem :=
  ⟨fun r => (l.find? fun e => e.1 = r).map Prod.snd⟩

/-- A disc given by its tracks, numbered from 1, and its two blocks. -/
def cd_of (tracks : List Track) (cdtext : Option Cdtext) (rem : Option Rem) : Cd :=
  { ntrack := tracks.length
    track := fun i => if 0 < i then tracks.get? (i.toNat - 1) else none
    cdtext := cdtext
    rem := rem }

/-- The disc of the worked scenario of the specification: two tracks, disc
TITLE "Album X", disc PERFORMER "Band Y", disc REM DATE "2020", track 1 TITLE
"Song A", nothing else on the disc or on track 1.  Track 2 is a parameter. -/
def scenario_cd (track2 : Track) : Cd :=
  cd_of
    [ ⟨some (cdtext_of [(.PTI_TITLE, "Song A")]), some rem_empty, none⟩, track2 ]
    (some (cdtext_of [(.PTI_TITLE, "Album X"), (.PTI_PERFORMER, "Band Y")]))
    (some (rem_of [(.REM_DATE, "2020")]))

/-- A disc with one track on which every field the program reads is present at
both scopes: the track's fields hold "T", its ISRC attribute "I", the disc's
fields "D". -/
def full_cd : Cd :=
  cd_of [ ⟨some ⟨fun _ => some "T"⟩, some ⟨fun _ => some "T"⟩, some "I"⟩ ]
    (some ⟨fun _ => some "D"⟩) (some ⟨fun _ => some "D"⟩)

/-- A disc with one track that has no field and no ISRC attribute; the disc's
fields all hold "D". -/
def disc_only_cd : Cd :=
  cd_of [ ⟨some cdtext_empty, some rem_empty, none⟩ ]
    (some ⟨fun _ => some "D"⟩) (some ⟨fun _ => some "D"⟩)

/-- A disc with one track whose fields all hold "T" and whose ISRC attribute is
"I"; the disc has no field. -/
def track_only_cd : Cd :=
  cd_of [ ⟨some ⟨fun _ => some "T"⟩, some ⟨fun _ => some "T"⟩, some "I"⟩ ]
    (some cdtext_empty) (some rem_empty)

/-- A disc with one track and no field at either scope. -/
def bare_cd : Cd :=
  cd_of [ ⟨some cdtext_empty, some rem_empty, none⟩ ] (some cdtext_empty) (some rem_empty)

/-- An environment with one file, "disc.cue", which parses to the given disc. -/
def env_of (cd : Cd) : Env :=
  { fopen := fun fn => if fn = "disc.cue" then some ⟨"disc.cue"⟩ else none
    cue_parse_file := fun _ => some cd }

/-- A track with empty CD-TEXT and REM blocks and the given title. -/
def titled (title : String) : Track :=
  ⟨some (cdtext_of [(.PTI_TITLE, title)]), some rem_empty, none⟩

/-- A disc of three titled tracks. -/
def three_cd : Cd :=
  cd_of [titled "a", titled "b", titled "c"] (some cdtext_empty) (some rem_empty)

/-- A disc of three tracks whose second track has no CD-TEXT block. -/
def broken_cd : Cd :=
  cd_of [titled "a", ⟨none, some rem_empty, none⟩, titled "c"]
    (some cdtext_empty) (some rem_empty)

/-- The disc `three_cd` with the title of track 2 changed. -/
def three_cd_alt : Cd :=
  cd_of [titled "a", titled "B", titled "c"] (some cdtext_empty) (some rem_empty)

/-- A disc with one track whose fields are all present and empty at track
scope (and whose ISRC attribute is "I"), and all "D" at disc scope. -/
def empty_fields_cd : Cd :=
  cd_of [ ⟨some ⟨fun _ => some ""⟩, some ⟨fun _ => some ""⟩, some "I"⟩ ]
    (some ⟨fun _ => some "D"⟩) (some ⟨fun _ => some "D"⟩)

/-! ## Lemmas on `print_track` -/

/-- The output of `print_track` once the five lookups have returned an object. -/
def tags (track_number track_count : Int) (t : Track) (dc : Cdtext) (dr : Rem)
    (tc : Cdtext) (tr : Rem) : List TagLine :=
  [⟨"TRACKNUMBER", fmt_d track_number⟩] ++
  ([⟨"TRACKTOTAL", fmt_d track_count⟩] ++
  (print_if "TITLE" (cdtext_get .PTI_TITLE tc) ++
  (print_if "ALBUM" (cdtext_get .PTI_TITLE dc) ++
  (print_if "ARTIST" (cdtext_get .PTI_PERFORMER tc) ++
  (print_if "ALBUMARTIST" (cdtext_get .PTI_PERFORMER dc) ++
  (print_pti tc dc ⟨.PTI_SONGWRITER, "LYRICIST"⟩ ++
  (print_pti tc dc ⟨.PTI_COMPOSER, "COMPOSER"⟩ ++
  (print_pti tc dc ⟨.PTI_ARRANGER, "ARRANGER"⟩ ++
  (print_pti tc dc ⟨.PTI_MESSAGE, "COMMENT"⟩ ++
  (print_pti tc dc ⟨.PTI_GENRE, "GENRE"⟩ ++
  (print_rem tr dr ⟨.REM_DATE, "DATE"⟩ ++
  (print_rem tr dr ⟨.REM_REPLAYGAIN_ALBUM_GAIN, "REPLAYGAIN_ALBUM_GAIN"⟩ ++
  (print_rem tr dr ⟨.REM_REPLAYGAIN_ALBUM_PEAK, "REPLAYGAIN_ALBUM_PEAK"⟩ ++
  (print_rem tr dr ⟨.REM_REPLAYGAIN_TRACK_GAIN, "REPLAYGAIN_TRACK_GAIN"⟩ ++
  (print_rem tr dr ⟨.REM_REPLAYGAIN_TRACK_PEAK, "REPLAYGAIN_TRACK_PEAK"⟩ ++
  (print_isrc t tc ++
  print_if "EAN/UPN" (cdtext_get .PTI_UPC_ISRC dc)))))))))))))))))

lemma print_track_of_lookups {i n : Int} {cd : Cd} {t : Track} {dc tc : Cdtext} {dr tr : Rem}
    (h1 : cd_get_track cd i = some t) (h2 : cd_get_cdtext cd = some dc)
    (h3 : cd_get_rem cd = some dr) (h4 : track_get_cdtext t = some tc)
    (h5 : track_get_rem t = some tr) :
    print_track i n cd = ⟨tags i n t dc dr tc tr, 0⟩ := by
  simp only [print_track, h1, h2, h3, h4, h5, g_pti_array, g_rem_array, List.foldl_cons,
    List.foldl_nil, tags, List.append_assoc]

lemma lookups_of_ret_zero {i n : Int} {cd : Cd} (h : (print_track i n cd).ret = 0) :
    ∃ t dc dr tc tr, cd_get_track cd i = some t ∧ cd_get_cdtext cd = some dc ∧
      cd_get_rem cd = some dr ∧ track_get_cdtext t = some tc ∧ track_get_rem t = some tr := by
  unfold print_track at h
  split at h
  · simp [onerror] at h
  · rename_i t h1
    split at h
    · simp [onerror] at h
    · rename_i dc h2
      split at h
      · simp [onerror] at h
      · rename_i dr h3
        split at h
        · simp [onerror] at h
        · rename_i tc h4
          split at h
          · simp [onerror] at h
          · rename_i tr h5
            exact ⟨t, dc, dr, tc, tr, h1, h2, h3, h4, h5⟩

lemma lookups_of_ok {i : Int} {cd : Cd} (h : lookups_ok cd i) :
    ∃ t dc dr tc tr, cd_get_track cd i = some t ∧ cd_get_cdtext cd = some dc ∧
      cd_get_rem cd = some dr ∧ track_get_cdtext t = some tc ∧ track_get_rem t = some tr := by
  obtain ⟨t, h1, h2, h3, h4, h5⟩ := h
  obtain ⟨dc, h2⟩ := Option.isSome_iff_exists.mp h2
  obtain ⟨dr, h3⟩ := Option.isSome_iff_exists.mp h3
  obtain ⟨tc, h4⟩ := Option.isSome_iff_exists.mp h4
  obtain ⟨tr, h5⟩ := Option.isSome_iff_exists.mp h5
  exact ⟨t, dc, dr, tc, tr, h1, h2, h3, h4, h5⟩

lemma lines_with_append (k : String) (a b : List TagLine) :
    lines_with k (a ++ b) = lines_with k a ++ lines_with k b := by
  simp [lines_with]

lemma lines_with_singleton (k : String) (a : TagLine) :
    lines_with k [a] = if a.key = k then [a] else [] := by
  simp [lines_with, List.filter_cons]

lemma lines_with_nil (k : String) : lines_with k [] = [] := rfl

lemma lines_with_print_if (k name : String) (x : Option String) :
    lines_with k (print_if name x) = if name = k then print_if name x else [] := by
  cases x <;> simp [print_if, lines_with, List.filter_cons]

lemma lines_with_print_pti (k : String) (tc dc : Cdtext) (e : PtiNamed) :
    lines_with k (print_pti tc dc e) = if e.name = k then print_pti tc dc e else [] := by
  unfold print_pti
  cases cdtext_get e.pti tc <;> cases cdtext_get e.pti dc <;>
    simp [lines_with, List.filter_cons]

lemma lines_with_print_rem (k : String) (tr dr : Rem) (e : RemNamed) :
    lines_with k (print_rem tr dr e) = if e.name = k then print_rem tr dr e else [] := by
  unfold print_rem
  cases rem_get e.rem tr <;> cases rem_get e.rem dr <;>
    simp [lines_with, List.filter_cons]

lemma lines_with_print_isrc (k : String) (t : Track) (tc : Cdtext) :
    lines_with k (print_isrc t tc) = if "ISRC" = k then print_isrc t tc else [] := by
  simp only [print_isrc, lines_with_print_if]

/-- The lines of `tags` with a given key, statement by statement. -/
lemma lines_with_tags (k : String) (i n : Int) (t : Track) (dc : Cdtext) (dr : Rem)
    (tc : Cdtext) (tr : Rem) :
    lines_with k (tags i n t dc dr tc tr) =
      (if "TRACKNUMBER" = k then [⟨"TRACKNUMBER", fmt_d i⟩] else []) ++
      ((if "TRACKTOTAL" = k then [⟨"TRACKTOTAL", fmt_d n⟩] else []) ++
      ((if "TITLE" = k then print_if "TITLE" (cdtext_get .PTI_TITLE tc) else []) ++
      ((if "ALBUM" = k then print_if "ALBUM" (cdtext_get .PTI_TITLE dc) else []) ++
      ((if "ARTIST" = k then print_if "ARTIST" (cdtext_get .PTI_PERFORMER tc) else []) ++
      ((if "ALBUMARTIST" = k then print_if "ALBUMARTIST" (cdtext_get .PTI_PERFORMER dc)
        else []) ++
      ((if "LYRICIST" = k then print_pti tc dc ⟨.PTI_SONGWRITER, "LYRICIST"⟩ else []) ++
      ((if "COMPOSER" = k then print_pti tc dc ⟨.PTI_COMPOSER, "COMPOSER"⟩ else []) ++
      ((if "ARRANGER" = k then print_pti tc dc ⟨.PTI_ARRANGER, "ARRANGER"⟩ else []) ++
      ((if "COMMENT" = k then print_pti tc dc ⟨.PTI_MESSAGE, "COMMENT"⟩ else []) ++
      ((if "GENRE" = k then print_pti tc dc ⟨.PTI_GENRE, "GENRE"⟩ else []) ++
      ((if "DATE" = k then print_rem tr dr ⟨.REM_DATE, "DATE"⟩ else []) ++
      ((if "REPLAYGAIN_ALBUM_GAIN" = k then
          print_rem tr dr ⟨.REM_REPLAYGAIN_ALBUM_GAIN, "REPLAYGAIN_ALBUM_GAIN"⟩ else []) ++
      ((if "REPLAYGAIN_ALBUM_PEAK" = k then
          print_rem tr dr ⟨.REM_REPLAYGAIN_ALBUM_PEAK, "REPLAYGAIN_ALBUM_PEAK"⟩ else []) ++
      ((if "REPLAYGAIN_TRACK_GAIN" = k then
          print_rem tr dr ⟨.REM_REPLAYGAIN_TRACK_GAIN, "REPLAYGAIN_TRACK_GAIN"⟩ else []) ++
      ((if "REPLAYGAIN_TRACK_PEAK" = k then
          print_rem tr dr ⟨.REM_REPLAYGAIN_TRACK_PEAK, "REPLAYGAIN_TRACK_PEAK"⟩ else []) ++
      ((if "ISRC" = k then print_isrc t tc else []) ++
      (if "EAN/UPN" = k then print_if "EAN/UPN" (cdtext_get .PTI_UPC_ISRC dc)
        else []))))))))))))))))) := by
  simp only [tags, lines_with_append, lines_with_print_if, lines_with_print_pti,
    lines_with_print_rem, lines_with_print_isrc, lines_with_singleton]

/-- The value a fallback row prints: the track's if there is one, else the disc's. -/
def row_value (tc dc : Cdtext) (tr dr : Rem) : FieldSource → Option String
  | .cdtext pti =>
    match cdtext_get pti tc with
    | some s => some s
    | none => cdtext_get pti dc
  | .rem rem =>
    match rem_get rem tr with
    | some s => some s
    | none => rem_get rem dr

lemma print_pti_eq (tc dc : Cdtext) (tr dr : Rem) (e : PtiNamed) :
    print_pti tc dc e = print_if e.name (row_value tc dc tr dr (.cdtext e.pti)) := by
  cases ht : cdtext_get e.pti tc <;> cases hd : cdtext_get e.pti dc <;>
    simp [print_pti, row_value, print_if, ht, hd]

lemma print_rem_eq (tc dc : Cdtext) (tr dr : Rem) (e : RemNamed) :
    print_rem tr dr e = print_if e.name (row_value tc dc tr dr (.rem e.rem)) := by
  cases ht : rem_get e.rem tr <;> cases hd : rem_get e.rem dr <;>
    simp [print_rem, row_value, print_if, ht, hd]

/-- The ten rows of the fallback group, in table order. -/
lemma fallback_rows_eq :
    fallback_rows =
      [ ⟨"LYRICIST", .cdtext .PTI_SONGWRITER⟩, ⟨"COMPOSER", .cdtext .PTI_COMPOSER⟩,
        ⟨"ARRANGER", .cdtext .PTI_ARRANGER⟩, ⟨"COMMENT", .cdtext .PTI_MESSAGE⟩,
        ⟨"GENRE", .cdtext .PTI_GENRE⟩, ⟨"DATE", .rem .REM_DATE⟩,
        ⟨"REPLAYGAIN_ALBUM_GAIN", .rem .REM_REPLAYGAIN_ALBUM_GAIN⟩,
        ⟨"REPLAYGAIN_ALBUM_PEAK", .rem .REM_REPLAYGAIN_ALBUM_PEAK⟩,
        ⟨"REPLAYGAIN_TRACK_GAIN", .rem .REM_REPLAYGAIN_TRACK_GAIN⟩,
        ⟨"REPLAYGAIN_TRACK_PEAK", .rem .REM_REPLAYGAIN_TRACK_PEAK⟩ ] := rfl

lemma mem_fallback_rows {row : FallbackRow} (h : row ∈ fallback_rows) :
    row = ⟨"LYRICIST", .cdtext .PTI_SONGWRITER⟩ ∨ row = ⟨"COMPOSER", .cdtext .PTI_COMPOSER⟩ ∨
    row = ⟨"ARRANGER", .cdtext .PTI_ARRANGER⟩ ∨ row = ⟨"COMMENT", .cdtext .PTI_MESSAGE⟩ ∨
    row = ⟨"GENRE", .cdtext .PTI_GENRE⟩ ∨ row = ⟨"DATE", .rem .REM_DATE⟩ ∨
    row = ⟨"REPLAYGAIN_ALBUM_GAIN", .rem .REM_REPLAYGAIN_ALBUM_GAIN⟩ ∨
    row = ⟨"REPLAYGAIN_ALBUM_PEAK", .rem .REM_REPLAYGAIN_ALBUM_PEAK⟩ ∨
    row = ⟨"REPLAYGAIN_TRACK_GAIN", .rem .REM_REPLAYGAIN_TRACK_GAIN⟩ ∨
    row = ⟨"REPLAYGAIN_TRACK_PEAK", .rem .REM_REPLAYGAIN_TRACK_PEAK⟩ := by
  simpa [fallback_rows, g_pti_array, g_rem_array] using h

/-- The lines of `tags` under the key of a fallback row: the one line of that row, if any. -/
lemma lines_with_fallback_row {row : FallbackRow} (hrow : row ∈ fallback_rows) (i n : Int)
    (t : Track) (dc : Cdtext) (dr : Rem) (tc : Cdtext) (tr : Rem) :
    lines_with row.key (tags i n t dc dr tc tr) =
      print_if row.key (row_value tc dc tr dr row.source) := by
  rcases mem_fallback_rows hrow with h | h | h | h | h | h | h | h | h | h <;> subst h <;>
    simp [lines_with_tags, print_pti_eq tc dc tr dr, print_rem_eq tc dc tr dr]

lemma track_scope_of_lookups {i : Int} {cd : Cd} {t : Track} {tc : Cdtext} {tr : Rem}
    (h1 : cd_get_track cd i = some t) (h4 : track_get_cdtext t = some tc)
    (h5 : track_get_rem t = some tr) (src : FieldSource) :
    track_scope cd i src = match src with
      | .cdtext pti => cdtext_get pti tc
      | .rem rem => rem_get rem tr := by
  cases src <;> simp [track_scope, track_field, track_rem, h1, h4, h5]

lemma disc_scope_of_lookups {cd : Cd} {dc : Cdtext} {dr : Rem}
    (h2 : cd_get_cdtext cd = some dc) (h3 : cd_get_rem cd = some dr) (src : FieldSource) :
    disc_scope cd src = match src with
      | .cdtext pti => cdtext_get pti dc
      | .rem rem => rem_get rem dr := by
  cases src <;> simp [disc_scope, disc_field, disc_rem, h2, h3]

/-- The value a fallback row prints, in terms of the two scopes of the disc. -/
lemma row_value_eq {i : Int} {cd : Cd} {t : Track} {dc tc : Cdtext} {dr tr : Rem}
    (h1 : cd_get_track cd i = some t) (h2 : cd_get_cdtext cd = some dc)
    (h3 : cd_get_rem cd = some dr) (h4 : track_get_cdtext t = some tc)
    (h5 : track_get_rem t = some tr) (src : FieldSource) :
    row_value tc dc tr dr src =
      match track_scope cd i src with
      | some s => some s
      | none => disc_scope cd src := by
  rw [track_scope_of_lookups h1 h4 h5, disc_scope_of_lookups h2 h3]
  cases src <;> rfl

lemma mem_of_lines_with {k : String} {out : List TagLine} {l : TagLine}
    (h : l ∈ lines_with k out) : l ∈ out :=
  (List.mem_filter.mp h).1

lemma mem_lines_with {k : String} {out : List TagLine} {l : TagLine} :
    l ∈ lines_with k out ↔ l ∈ out ∧ l.key = k := by
  simp [lines_with, List.mem_filter]

lemma mem_iff_of_lines_with {k : String} {out : List TagLine} {x : Option String}
    (h : lines_with k out = print_if k x) (v : String) :
    (⟨k, v⟩ : TagLine) ∈ out ↔ x = some v := by
  have hm : (⟨k, v⟩ : TagLine) ∈ out ↔ (⟨k, v⟩ : TagLine) ∈ lines_with k out := by
    rw [mem_lines_with]; simp
  rw [hm, h]
  cases x <;> simp [print_if, eq_comm]

lemma no_key_of_lines_with {k : String} {out : List TagLine}
    (h : lines_with k out = []) : ∀ l ∈ out, l.key ≠ k := by
  intro l hl hk
  have : l ∈ lines_with k out := mem_lines_with.mpr ⟨hl, hk⟩
  rw [h] at this
  exact List.not_mem_nil _ this

/-- Either `print_track` left through `onerror`, or the five lookups returned an
object and the output is `tags`. -/
lemma print_track_cases (i n : Int) (cd : Cd) :
    print_track i n cd = onerror ∨
    ∃ t dc dr tc tr, cd_get_track cd i = some t ∧ cd_get_cdtext cd = some dc ∧
      cd_get_rem cd = some dr ∧ track_get_cdtext t = some tc ∧ track_get_rem t = some tr ∧
      print_track i n cd = ⟨tags i n t dc dr tc tr, 0⟩ := by
  by_cases h : (print_track i n cd).ret = 0
  · obtain ⟨t, dc, dr, tc, tr, h1, h2, h3, h4, h5⟩ := lookups_of_ret_zero h
    exact Or.inr ⟨t, dc, dr, tc, tr, h1, h2, h3, h4, h5, print_track_of_lookups h1 h2 h3 h4 h5⟩
  · left
    cases h1 : cd_get_track cd i with
    | none => simp [print_track, h1]
    | some t =>
      cases h2 : cd_get_cdtext cd with
      | none => simp [print_track, h1, h2]
      | some dc =>
        cases h3 : cd_get_rem cd with
        | none => simp [print_track, h1, h2, h3]
        | some dr =>
          cases h4 : track_get_cdtext t with
          | none => simp [print_track, h1, h2, h3, h4]
          | some tc =>
            cases h5 : track_get_rem t with
            | none => simp [print_track, h1, h2, h3, h4, h5]
            | some tr =>
              exact absurd (by rw [print_track_of_lookups h1 h2 h3 h4 h5]) h

lemma keys_of_append (a b : List TagLine) : keys_of (a ++ b) = keys_of a ++ keys_of b := by
  simp [keys_of]

lemma keys_of_print_if (name : String) (x : Option String) :
    (keys_of (print_if name x)).Sublist [name] := by
  cases x <;> simp [keys_of, print_if]

lemma keys_of_print_pti (tc dc : Cdtext) (e : PtiNamed) :
    (keys_of (print_pti tc dc e)).Sublist [e.name] := by
  rw [print_pti_eq tc dc rem_empty rem_empty]
  exact keys_of_print_if _ _

lemma keys_of_print_rem (tr dr : Rem) (e : RemNamed) :
    (keys_of (print_rem tr dr e)).Sublist [e.name] := by
  rw [print_rem_eq cdtext_empty cdtext_empty]
  exact keys_of_print_if _ _

lemma keys_of_tags (i n : Int) (t : Track) (dc : Cdtext) (dr : Rem) (tc : Cdtext) (tr : Rem) :
    (keys_of (tags i n t dc dr tc tr)).Sublist key_order := by
  have hk : key_order = ["TRACKNUMBER"] ++ (["TRACKTOTAL"] ++ (["TITLE"] ++ (["ALBUM"] ++
      (["ARTIST"] ++ (["ALBUMARTIST"] ++ (["LYRICIST"] ++ (["COMPOSER"] ++ (["ARRANGER"] ++
      (["COMMENT"] ++ (["GENRE"] ++ (["DATE"] ++ (["REPLAYGAIN_ALBUM_GAIN"] ++
      (["REPLAYGAIN_ALBUM_PEAK"] ++ (["REPLAYGAIN_TRACK_GAIN"] ++
      (["REPLAYGAIN_TRACK_PEAK"] ++ (["ISRC"] ++ ["EAN/UPN"])))))))))))))))) := rfl
  rw [hk]
  simp only [tags, keys_of_append]
  refine List.Sublist.append (List.Sublist.refl _) ?_
  refine List.Sublist.append (List.Sublist.refl _) ?_
  refine List.Sublist.append (keys_of_print_if _ _) ?_
  refine List.Sublist.append (keys_of_print_if _ _) ?_
  refine List.Sublist.append (keys_of_print_if _ _) ?_
  refine List.Sublist.append (keys_of_print_if _ _) ?_
  refine List.Sublist.append (keys_of_print_pti _ _ _) ?_
  refine List.Sublist.append (keys_of_print_pti _ _ _) ?_
  refine List.Sublist.append (keys_of_print_pti _ _ _) ?_
  refine List.Sublist.append (keys_of_print_pti _ _ _) ?_
  refine List.Sublist.append (keys_of_print_pti _ _ _) ?_
  refine List.Sublist.append (keys_of_print_rem _ _ _) ?_
  refine List.Sublist.append (keys_of_print_rem _ _ _) ?_
  refine List.Sublist.append (keys_of_print_rem _ _ _) ?_
  refine List.Sublist.append (keys_of_print_rem _ _ _) ?_
  refine List.Sublist.append (keys_of_print_rem _ _ _) ?_
  exact List.Sublist.append (keys_of_print_if _ _) (keys_of_print_if _ _)

/-- The keys `print_track` prints are a selection of `key_order`, in its order. -/
lemma keys_of_print_track (i n : Int) (cd : Cd) :
    (keys_of (print_track i n cd).out).Sublist key_order := by
  rcases print_track_cases i n cd with h | ⟨t, dc, dr, tc, tr, -, -, -, -, -, h⟩
  · rw [h]; simp [onerror, keys_of]
  · rw [h]; exact keys_of_tags i n t dc dr tc tr

/-! ## The fallback group -/

/-- C1 (track precedence).  When `print_track` returns 0 and the source field of
a fallback row is present at track scope (value `tv`) and at disc scope (value
`dv`), the output has the line `key=tv`, this is the only line with the row's
key, and so the disc's value is not printed under that key (a line `key=dv`
would have to be the track's own line). -/
theorem track_precedence (cd : Cd) (i n : Int) (row : FallbackRow) (tv dv : String)
    (hret : (print_track i n cd).ret = 0) (hrow : row ∈ fallback_rows)
    (ht : track_scope cd i row.source = some tv)
    (_hd : disc_scope cd row.source = some dv) :
    (⟨row.key, tv⟩ : TagLine) ∈ (print_track i n cd).out ∧
    lines_with row.key (print_track i n cd).out = [⟨row.key, tv⟩] ∧
    (dv ≠ tv → (⟨row.key, dv⟩ : TagLine) ∉ (print_track i n cd).out) := by
  obtain ⟨t, dc, dr, tc, tr, h1, h2, h3, h4, h5⟩ := lookups_of_ret_zero hret
  have hl : lines_with row.key (print_track i n cd).out = [⟨row.key, tv⟩] := by
    rw [print_track_of_lookups h1 h2 h3 h4 h5, lines_with_fallback_row hrow,
      row_value_eq h1 h2 h3 h4 h5, ht]
    rfl
  refine ⟨mem_of_lines_with (k := row.key) (by rw [hl]; simp), hl, ?_⟩
  intro hne hmem
  have : (⟨row.key, dv⟩ : TagLine) ∈ lines_with row.key (print_track i n cd).out :=
    mem_lines_with.mpr ⟨hmem, rfl⟩
  rw [hl] at this
  simp at this
  exact hne this

theorem track_precedence_witness :
    (print_track 1 1 full_cd).ret = 0 ∧
    (⟨"DATE", .rem .REM_DATE⟩ : FallbackRow) ∈ fallback_rows ∧
    track_scope full_cd 1 (.rem .REM_DATE) = some "T" ∧
    disc_scope full_cd (.rem .REM_DATE) = some "D" ∧
    ((⟨"DATE", "T"⟩ : TagLine) ∈ (print_track 1 1 full_cd).out ∧
     lines_with "DATE" (print_track 1 1 full_cd).out = [⟨"DATE", "T"⟩] ∧
     ("D" ≠ "T" → (⟨"DATE", "D"⟩ : TagLine) ∉ (print_track 1 1 full_cd).out)) :=
  ⟨by decide, by decide, by decide, by decide,
    track_precedence full_cd 1 1 ⟨"DATE", .rem .REM_DATE⟩ "T" "D"
      (by decide) (by decide) (by decide) (by decide)⟩

/-- C2 (disc fallback).  When `print_track` returns 0 and the source field of a
fallback row is absent at track scope and present at disc scope with value
`dv`, the output has the line `key=dv`, and it is the only line with that key. -/
theorem disc_fallback (cd : Cd) (i n : Int) (row : FallbackRow) (dv : String)
    (hret : (print_track i n cd).ret = 0) (hrow : row ∈ fallback_rows)
    (ht : track_scope cd i row.source = none)
    (hd : disc_scope cd row.source = some dv) :
    (⟨row.key, dv⟩ : TagLine) ∈ (print_track i n cd).out ∧
    lines_with row.key (print_track i n cd).out = [⟨row.key, dv⟩] := by
  obtain ⟨t, dc, dr, tc, tr, h1, h2, h3, h4, h5⟩ := lookups_of_ret_zero hret
  have hl : lines_with row.key (print_track i n cd).out = [⟨row.key, dv⟩] := by
    rw [print_track_of_lookups h1 h2 h3 h4 h5, lines_with_fallback_row hrow,
      row_value_eq h1 h2 h3 h4 h5, ht, hd]
    rfl
  exact ⟨mem_of_lines_with (k := row.key) (by rw [hl]; simp), hl⟩

theorem disc_fallback_witness :
    (print_track 1 1 disc_only_cd).ret = 0 ∧
    (⟨"LYRICIST", .cdtext .PTI_SONGWRITER⟩ : FallbackRow) ∈ fallback_rows ∧
    track_scope disc_only_cd 1 (.cdtext .PTI_SONGWRITER) = none ∧
    disc_scope disc_only_cd (.cdtext .PTI_SONGWRITER) = some "D" ∧
    ((⟨"LYRICIST", "D"⟩ : TagLine) ∈ (print_track 1 1 disc_only_cd).out ∧
     lines_with "LYRICIST" (print_track 1 1 disc_only_cd).out = [⟨"LYRICIST", "D"⟩]) :=
  ⟨by decide, by decide, by decide, by decide,
    disc_fallback disc_only_cd 1 1 ⟨"LYRICIST", .cdtext .PTI_SONGWRITER⟩ "D"
      (by decide) (by decide) (by decide) (by decide)⟩

/-- C3 (omission of absent fields).  When the five structure lookups of
`print_track` succeed and the source field of a fallback row is absent at track
scope and at disc scope, `print_track` still returns 0 and no line of its output
has that row's key. -/
theorem absent_field_omitted (cd : Cd) (i n : Int) (row : FallbackRow)
    (hok : lookups_ok cd i) (hrow : row ∈ fallback_rows)
    (ht : track_scope cd i row.source = none)
    (hd : disc_scope cd row.source = none) :
    (print_track i n cd).ret = 0 ∧
    ∀ l ∈ (print_track i n cd).out, l.key ≠ row.key := by
  obtain ⟨t, dc, dr, tc, tr, h1, h2, h3, h4, h5⟩ := lookups_of_ok hok
  have hl : lines_with row.key (print_track i n cd).out = [] := by
    rw [print_track_of_lookups h1 h2 h3 h4 h5, lines_with_fallback_row hrow,
      row_value_eq h1 h2 h3 h4 h5, ht, hd]
    rfl
  refine ⟨by rw [print_track_of_lookups h1 h2 h3 h4 h5], ?_⟩
  intro l hl' hk
  have : l ∈ lines_with row.key (print_track i n cd).out := mem_lines_with.mpr ⟨hl', hk⟩
  rw [hl] at this
  exact List.not_mem_nil _ this

theorem absent_field_omitted_witness :
    lookups_ok bare_cd 1 ∧
    (⟨"GENRE", .cdtext .PTI_GENRE⟩ : FallbackRow) ∈ fallback_rows ∧
    track_scope bare_cd 1 (.cdtext .PTI_GENRE) = none ∧
    disc_scope bare_cd (.cdtext .PTI_GENRE) = none ∧
    ((print_track 1 1 bare_cd).ret = 0 ∧
     ∀ l ∈ (print_track 1 1 bare_cd).out, l.key ≠ "GENRE") :=
  have hok : lookups_ok bare_cd 1 := ⟨_, rfl, rfl, rfl, rfl, rfl⟩
  ⟨hok, by decide, by decide, by decide,
    absent_field_omitted bare_cd 1 1 ⟨"GENRE", .cdtext .PTI_GENRE⟩
      hok (by decide) (by decide) (by decide)⟩

/-! ## The title/artist group -/

/-- C4 (the title/artist group is scope-exclusive).  When `print_track` returns
0: a line `TITLE=v` is printed exactly when the track's TITLE field is `v`, a
line `ALBUM=v` exactly when the disc's TITLE field is `v`, a line `ARTIST=v`
exactly when the track's PERFORMER field is `v`, a line `ALBUMARTIST=v` exactly
when the disc's PERFORMER field is `v`.  In particular no TITLE line is printed
when the track has no TITLE (whatever the disc has), and no ALBUM line when the
disc has no TITLE (whatever the track has). -/
theorem title_artist_scope_exclusive (cd : Cd) (i n : Int)
    (hret : (print_track i n cd).ret = 0) :
    (∀ v, (⟨"TITLE", v⟩ : TagLine) ∈ (print_track i n cd).out ↔
      track_field cd i .PTI_TITLE = some v) ∧
    (∀ v, (⟨"ALBUM", v⟩ : TagLine) ∈ (print_track i n cd).out ↔
      disc_field cd .PTI_TITLE = some v) ∧
    (∀ v, (⟨"ARTIST", v⟩ : TagLine) ∈ (print_track i n cd).out ↔
      track_field cd i .PTI_PERFORMER = some v) ∧
    (∀ v, (⟨"ALBUMARTIST", v⟩ : TagLine) ∈ (print_track i n cd).out ↔
      disc_field cd .PTI_PERFORMER = some v) ∧
    (track_field cd i .PTI_TITLE = none →
      ∀ l ∈ (print_track i n cd).out, l.key ≠ "TITLE") ∧
    (disc_field cd .PTI_TITLE = none →
      ∀ l ∈ (print_track i n cd).out, l.key ≠ "ALBUM") := by
  obtain ⟨t, dc, dr, tc, tr, h1, h2, h3, h4, h5⟩ := lookups_of_ret_zero hret
  have ht : ∀ p, track_field cd i p = cdtext_get p tc := fun p => by
    simp [track_field, h1, h4]
  have hd : ∀ p, disc_field cd p = cdtext_get p dc := fun p => by
    simp [disc_field, h2]
  have e1 : lines_with "TITLE" (print_track i n cd).out =
      print_if "TITLE" (track_field cd i .PTI_TITLE) := by
    rw [print_track_of_lookups h1 h2 h3 h4 h5, lines_with_tags, ht]; simp
  have e2 : lines_with "ALBUM" (print_track i n cd).out =
      print_if "ALBUM" (disc_field cd .PTI_TITLE) := by
    rw [print_track_of_lookups h1 h2 h3 h4 h5, lines_with_tags, hd]; simp
  have e3 : lines_with "ARTIST" (print_track i n cd).out =
      print_if "ARTIST" (track_field cd i .PTI_PERFORMER) := by
    rw [print_track_of_lookups h1 h2 h3 h4 h5, lines_with_tags, ht]; simp
  have e4 : lines_with "ALBUMARTIST" (print_track i n cd).out =
      print_if "ALBUMARTIST" (disc_field cd .PTI_PERFORMER) := by
    rw [print_track_of_lookups h1 h2 h3 h4 h5, lines_with_tags, hd]; simp
  refine ⟨mem_iff_of_lines_with e1, mem_iff_of_lines_with e2, mem_iff_of_lines_with e3,
    mem_iff_of_lines_with e4, ?_, ?_⟩
  · intro h
    rw [h] at e1
    exact no_key_of_lines_with e1
  · intro h
    rw [h] at e2
    exact no_key_of_lines_with e2

theorem title_artist_scope_exclusive_witness :
    (print_track 1 1 track_only_cd).ret = 0 ∧
    ((∀ v, (⟨"TITLE", v⟩ : TagLine) ∈ (print_track 1 1 track_only_cd).out ↔
      track_field track_only_cd 1 .PTI_TITLE = some v) ∧
    (∀ v, (⟨"ALBUM", v⟩ : TagLine) ∈ (print_track 1 1 track_only_cd).out ↔
      disc_field track_only_cd .PTI_TITLE = some v) ∧
    (∀ v, (⟨"ARTIST", v⟩ : TagLine) ∈ (print_track 1 1 track_only_cd).out ↔
      track_field track_only_cd 1 .PTI_PERFORMER = some v) ∧
    (∀ v, (⟨"ALBUMARTIST", v⟩ : TagLine) ∈ (print_track 1 1 track_only_cd).out ↔
      disc_field track_only_cd .PTI_PERFORMER = some v) ∧
    (track_field track_only_cd 1 .PTI_TITLE = none →
      ∀ l ∈ (print_track 1 1 track_only_cd).out, l.key ≠ "TITLE") ∧
    (disc_field track_only_cd .PTI_TITLE = none →
      ∀ l ∈ (print_track 1 1 track_only_cd).out, l.key ≠ "ALBUM")) :=
  ⟨by decide, title_artist_scope_exclusive track_only_cd 1 1 (by decide)⟩

/-! ## The identifier group -/

/-- C5 (ISRC resolution).  When `print_track` returns 0: if the track's CD-TEXT
UPC_ISRC field is `v`, the one ISRC line is `ISRC=v`, whatever the track's ISRC
attribute is; if that field is absent and the track's ISRC attribute is `v`, the
one ISRC line is `ISRC=v`; if both are absent there is no ISRC line.  The three
cases do not look at the disc: its UPC_ISRC never supplies the ISRC line. -/
theorem isrc_resolution (cd : Cd) (i n : Int) (hret : (print_track i n cd).ret = 0) :
    (∀ v, track_field cd i .PTI_UPC_ISRC = some v →
      lines_with "ISRC" (print_track i n cd).out = [⟨"ISRC", v⟩]) ∧
    (∀ v, track_field cd i .PTI_UPC_ISRC = none → track_isrc cd i = some v →
      lines_with "ISRC" (print_track i n cd).out = [⟨"ISRC", v⟩]) ∧
    (track_field cd i .PTI_UPC_ISRC = none → track_isrc cd i = none →
      ∀ l ∈ (print_track i n cd).out, l.key ≠ "ISRC") := by
  obtain ⟨t, dc, dr, tc, tr, h1, h2, h3, h4, h5⟩ := lookups_of_ret_zero hret
  have ht : track_field cd i .PTI_UPC_ISRC = cdtext_get .PTI_UPC_ISRC tc := by
    simp [track_field, h1, h4]
  have hi : track_isrc cd i = track_get_isrc t := by
    simp [track_isrc, h1]
  have e : lines_with "ISRC" (print_track i n cd).out = print_isrc t tc := by
    rw [print_track_of_lookups h1 h2 h3 h4 h5, lines_with_tags]; simp
  rw [ht, hi]
  refine ⟨?_, ?_, ?_⟩
  · intro v hv
    rw [e]; simp [print_isrc, hv, print_if]
  · intro v hn hv
    rw [e]; simp [print_isrc, hn, hv, print_if]
  · intro hn hv
    apply no_key_of_lines_with
    rw [e]; simp [print_isrc, hn, hv, print_if]

theorem isrc_resolution_witness :
    (print_track 1 1 full_cd).ret = 0 ∧
    track_field full_cd 1 .PTI_UPC_ISRC = some "T" ∧ track_isrc full_cd 1 = some "I" ∧
    disc_field full_cd .PTI_UPC_ISRC = some "D" ∧
    lines_with "ISRC" (print_track 1 1 full_cd).out = [⟨"ISRC", "T"⟩] :=
  ⟨by decide, by decide, by decide, by decide,
    (isrc_resolution full_cd 1 1 (by decide)).1 "T" (by decide)⟩

/-- C6 (EAN/UPN is disc-scope only).  When `print_track` returns 0, a line
`EAN/UPN=v` is printed exactly when the disc's CD-TEXT UPC_ISRC field is `v`;
when that field is absent no line has the key EAN/UPN, whatever the track's
UPC_ISRC field and ISRC attribute are. -/
theorem ean_upn_disc_only (cd : Cd) (i n : Int) (hret : (print_track i n cd).ret = 0) :
    (∀ v, (⟨"EAN/UPN", v⟩ : TagLine) ∈ (print_track i n cd).out ↔
      disc_field cd .PTI_UPC_ISRC = some v) ∧
    (disc_field cd .PTI_UPC_ISRC = none →
      ∀ l ∈ (print_track i n cd).out, l.key ≠ "EAN/UPN") := by
  obtain ⟨t, dc, dr, tc, tr, h1, h2, h3, h4, h5⟩ := lookups_of_ret_zero hret
  have hd : disc_field cd .PTI_UPC_ISRC = cdtext_get .PTI_UPC_ISRC dc := by
    simp [disc_field, h2]
  have e : lines_with "EAN/UPN" (print_track i n cd).out =
      print_if "EAN/UPN" (disc_field cd .PTI_UPC_ISRC) := by
    rw [print_track_of_lookups h1 h2 h3 h4 h5, lines_with_tags, hd]; simp
  refine ⟨mem_iff_of_lines_with e, ?_⟩
  intro h
  rw [h] at e
  exact no_key_of_lines_with e

theorem ean_upn_disc_only_witness :
    (print_track 1 1 track_only_cd).ret = 0 ∧
    track_field track_only_cd 1 .PTI_UPC_ISRC = some "T" ∧
    track_isrc track_only_cd 1 = some "I" ∧
    disc_field track_only_cd .PTI_UPC_ISRC = none ∧
    ∀ l ∈ (print_track 1 1 track_only_cd).out, l.key ≠ "EAN/UPN" :=
  ⟨by decide, by decide, by decide, by decide,
    (ean_upn_disc_only track_only_cd 1 1 (by decide)).2 (by decide)⟩

/-! ## Shape of a block -/

/-- C7 (block header).  When the five structure lookups of `print_track`
succeed, the first line printed is `TRACKNUMBER=<track_number>` and the second
is `TRACKTOTAL=<track_count>`, both in decimal, whatever fields are present.
This holds for every pair of numbers, so for `1 ≤ i ≤ track_count` too. -/
theorem block_header (cd : Cd) (i n : Int) (hok : lookups_ok cd i) :
    (print_track i n cd).out[0]? = some ⟨"TRACKNUMBER", fmt_d i⟩ ∧
    (print_track i n cd).out[1]? = some ⟨"TRACKTOTAL", fmt_d n⟩ := by
  obtain ⟨t, dc, dr, tc, tr, h1, h2, h3, h4, h5⟩ := lookups_of_ok hok
  rw [print_track_of_lookups h1 h2 h3 h4 h5]
  simp [tags]

theorem block_header_witness :
    lookups_ok bare_cd 1 ∧ fmt_d 1 = "1" ∧
    ((print_track 1 1 bare_cd).out[0]? = some ⟨"TRACKNUMBER", fmt_d 1⟩ ∧
     (print_track 1 1 bare_cd).out[1]? = some ⟨"TRACKTOTAL", fmt_d 1⟩) :=
  have hok : lookups_ok bare_cd 1 := ⟨_, rfl, rfl, rfl, rfl, rfl⟩
  ⟨hok, by decide, block_header bare_cd 1 1 hok⟩

/-- C8 (fixed output order).  For every disc and every pair of arguments, the
keys `print_track` prints, in the order printed, form a sublist of the fixed
list TRACKNUMBER, TRACKTOTAL, TITLE, ALBUM, ARTIST, ALBUMARTIST, LYRICIST,
COMPOSER, ARRANGER, COMMENT, GENRE, DATE, REPLAYGAIN_ALBUM_GAIN,
REPLAYGAIN_ALBUM_PEAK, REPLAYGAIN_TRACK_GAIN, REPLAYGAIN_TRACK_PEAK, ISRC,
EAN/UPN: which fields are present selects keys, and never reorders them. -/
theorem fixed_output_order (cd : Cd) (i n : Int) :
    (keys_of (print_track i n cd).out).Sublist
      [ "TRACKNUMBER", "TRACKTOTAL", "TITLE", "ALBUM", "ARTIST", "ALBUMARTIST",
        "LYRICIST", "COMPOSER", "ARRANGER", "COMMENT", "GENRE", "DATE",
        "REPLAYGAIN_ALBUM_GAIN", "REPLAYGAIN_ALBUM_PEAK", "REPLAYGAIN_TRACK_GAIN",
        "REPLAYGAIN_TRACK_PEAK", "ISRC", "EAN/UPN" ] :=
  keys_of_print_track i n cd

/-- C9 (no duplicate keys).  For every disc and every pair of arguments, no key
occurs on two lines of the block one call of `print_track` prints. -/
theorem no_duplicate_keys (cd : Cd) (i n : Int) :
    (keys_of (print_track i n cd).out).Nodup :=
  List.Nodup.sublist (keys_of_print_track i n cd) (by decide)

/-- C10 (worked scenario).  On the disc of the scenario (two tracks, disc TITLE
"Album X", disc PERFORMER "Band Y", disc REM DATE "2020", track 1 TITLE "Song A",
nothing else on the disc or on track 1), whatever track 2 is, `print_track 1 2`
returns 0 and prints exactly TRACKNUMBER=1, TRACKTOTAL=2, TITLE=Song A,
ALBUM=Album X, ALBUMARTIST=Band Y, DATE=2020, in that order; no line has the key
ARTIST. -/
theorem worked_scenario (track2 : Track) :
    print_track 1 2 (scenario_cd track2) =
      ⟨[ ⟨"TRACKNUMBER", "1"⟩, ⟨"TRACKTOTAL", "2"⟩, ⟨"TITLE", "Song A"⟩,
         ⟨"ALBUM", "Album X"⟩, ⟨"ALBUMARTIST", "Band Y"⟩, ⟨"DATE", "2020"⟩ ], 0⟩ ∧
    (print_track 1 2 (scenario_cd track2)).stdout =
      "TRACKNUMBER=1\nTRACKTOTAL=2\nTITLE=Song A\nALBUM=Album X\nALBUMARTIST=Band Y\nDATE=2020\n" ∧
    ∀ l ∈ (print_track 1 2 (scenario_cd track2)).out, l.key ≠ "ARTIST" := by
  have h : print_track 1 2 (scenario_cd track2) =
      ⟨[ ⟨"TRACKNUMBER", "1"⟩, ⟨"TRACKTOTAL", "2"⟩, ⟨"TITLE", "Song A"⟩,
         ⟨"ALBUM", "Album X"⟩, ⟨"ALBUMARTIST", "Band Y"⟩, ⟨"DATE", "2020"⟩ ], 0⟩ := rfl
  rw [h]
  refine ⟨rfl, by decide, by decide⟩

/-! ## Lemmas on `atoi` -/

lemma digitChar_facts : ∀ m < 10,
    (Nat.digitChar m).isDigit = true ∧ (Nat.digitChar m).toNat - 48 = m ∧
    isspace (Nat.digitChar m) = false ∧ (Nat.digitChar m).toNat ≠ 45 ∧
    (Nat.digitChar m).toNat ≠ 43 := by
  decide

lemma digits_value_cons_digitChar (a m : Nat) (hm : m < 10) (cs : List Char) :
    digits_value a (Nat.digitChar m :: cs) = digits_value (a * 10 + m) cs := by
  obtain ⟨h1, h2, -⟩ := digitChar_facts m hm
  simp [digits_value, h1, h2]

/-- A run of digits ends where the text ends or a character that is no digit stands. -/
lemma digits_value_stop (a : Nat) (r : List Char)
    (hr : ∀ c, r.head? = some c → c.isDigit = false) : digits_value a r = a := by
  cases r with
  | nil => rfl
  | cons c cs => simp [digits_value, hr c rfl]

/-- Reading back the digits `Nat.toDigitsCore` writes. -/
lemma digits_value_toDigitsCore (r : List Char) :
    ∀ (fuel n : Nat) (ds : List Char), n < fuel →
      digits_value 0 (Nat.toDigitsCore 10 fuel n ds ++ r) = digits_value n (ds ++ r) := by
  intro fuel
  induction fuel with
  | zero => intro n ds h; omega
  | succ fuel ih =>
    intro n ds h
    have hm : n % 10 < 10 := Nat.mod_lt _ (by decide)
    by_cases h0 : n / 10 = 0
    · have hn : n % 10 = n := by omega
      simp only [Nat.toDigitsCore, h0, if_true, List.cons_append]
      rw [digits_value_cons_digitChar 0 _ hm, hn]
      simp
    · have hlt : n / 10 < fuel := by omega
      simp only [Nat.toDigitsCore, h0, if_false]
      rw [ih (n / 10) _ hlt, List.cons_append, digits_value_cons_digitChar _ _ hm]
      congr 1
      omega

/-- The text `Nat.toDigitsCore` writes starts with a digit. -/
lemma toDigitsCore_head :
    ∀ (fuel n : Nat) (ds : List Char),
      (0 < fuel ∨ ∃ m tl, m < 10 ∧ ds = Nat.digitChar m :: tl) →
      ∃ m tl, m < 10 ∧ Nat.toDigitsCore 10 fuel n ds = Nat.digitChar m :: tl := by
  intro fuel
  induction fuel with
  | zero =>
    intro n ds h
    rcases h with h | h
    · omega
    · simpa [Nat.toDigitsCore] using h
  | succ fuel ih =>
    intro n ds _
    have hm : n % 10 < 10 := Nat.mod_lt _ (by decide)
    by_cases h0 : n / 10 = 0
    · exact ⟨n % 10, ds, hm, by simp [Nat.toDigitsCore, h0]⟩
    · simp only [Nat.toDigitsCore, h0, if_false]
      exact ih _ _ (Or.inr ⟨n % 10, ds, hm, rfl⟩)

lemma dropWhile_isspace_append (ws xs : List Char) (h : ∀ c ∈ ws, isspace c = true) :
    (ws ++ xs).dropWhile isspace = xs.dropWhile isspace := by
  induction ws with
  | nil => rfl
  | cons c ws ih =>
    have hc := h c (List.mem_cons_self _ _)
    simp only [List.cons_append, List.dropWhile_cons, hc, if_true]
    exact ih fun d hd => h d (List.mem_cons_of_mem _ hd)

/-- The number `strtol` reads in optional white space, the decimal notation of
`n`, and a rest that does not start with a digit, is `n`. -/
lemma strtol_value_decimal (ws rest : String) (n : Nat)
    (hws : ∀ c ∈ ws.toList, isspace c = true)
    (hrest : ∀ c, rest.toList.head? = some c → c.isDigit = false) :
    strtol_value (ws ++ toString n ++ rest) = (n : Int) := by
  have hr : (toString n).data = Nat.toDigitsCore 10 (n + 1) n [] := rfl
  have hl : (ws ++ toString n ++ rest).toList =
      ws.toList ++ (Nat.toDigitsCore 10 (n + 1) n [] ++ rest.toList) := by
    simp [String.toList, hr, List.append_assoc]
  obtain ⟨m, tl, hm, hd⟩ := toDigitsCore_head (n + 1) n [] (Or.inl (Nat.succ_pos n))
  obtain ⟨-, -, hs, h45, h43⟩ := digitChar_facts m hm
  have hv := digits_value_toDigitsCore rest.toList (n + 1) n [] (Nat.lt_succ_self n)
  rw [List.nil_append, digits_value_stop n _ hrest] at hv
  unfold strtol_value
  rw [hl, dropWhile_isspace_append _ _ hws]
  rw [hd] at hv ⊢
  simp only [List.cons_append, List.dropWhile_cons, hs] at hv ⊢
  simp only [Bool.false_eq_true, if_false, if_neg h45, if_neg h43]
  exact congrArg Int.ofNat hv

lemma int_of_long_of_int {x : Int} (h1 : -2147483648 ≤ x) (h2 : x ≤ INT_MAX) :
    int_of_long x = x := by
  unfold int_of_long
  unfold INT_MAX at h2
  omega

/-- The value of `atoi` on optional white space, the decimal notation of a
number `n` that fits an `int`, and a rest that does not start with a digit. -/
lemma atoi_decimal (ws rest : String) (n : Nat)
    (hws : ∀ c ∈ ws.toList, isspace c = true)
    (hrest : ∀ c, rest.toList.head? = some c → c.isDigit = false)
    (hn : (n : Int) ≤ INT_MAX) :
    atoi (ws ++ toString n ++ rest) = (n : Int) := by
  have h1 : ¬ (n : Int) > LONG_MAX := by unfold LONG_MAX; unfold INT_MAX at hn; omega
  have h2 : ¬ (n : Int) < LONG_MIN := by unfold LONG_MIN; omega
  simp only [atoi, strtol, strtol_value_decimal ws rest n hws hrest, h1, h2, if_false]
  exact int_of_long_of_int (by omega) hn

/-- The value of `atoi` on the decimal notation of a number that fits an `int`. -/
lemma atoi_toString (n : Nat) (hn : (n : Int) ≤ INT_MAX) : atoi (toString n) = (n : Int) := by
  have h := atoi_decimal "" "" n (by simp) (by simp) hn
  simpa using h

/-- The value of `atoi` on a text that starts with no white space, sign or digit. -/
lemma atoi_no_number (arg : String)
    (h : ∀ c, arg.toList.head? = some c →
      isspace c = false ∧ c.toNat ≠ 45 ∧ c.toNat ≠ 43 ∧ c.isDigit = false) :
    atoi arg = 0 := by
  have hv : strtol_value arg = 0 := by
    unfold strtol_value
    cases hl : arg.toList with
    | nil => rfl
    | cons c cs =>
      obtain ⟨hs, h45, h43, hd⟩ := h c (by rw [hl]; rfl)
      simp [List.dropWhile_cons, hs, h45, h43, digits_value, hd]
  simp [atoi, strtol, hv, LONG_MAX, LONG_MIN, int_of_long]

/-- Arguments whose number does not fit an `int`: the value `main` holds in
`track_arg`, and the run on a disc of three tracks. -/
lemma atoi_out_of_range :
    atoi "2147483647" = 2147483647 ∧ atoi "2147483648" = -2147483648 ∧
    atoi "4294967296" = 0 ∧ atoi "4294967297" = 1 ∧
    atoi "9223372036854775808" = -1 ∧
    (main (env_of three_cd) ["cue2vorbis", "disc.cue", "4294967297"]).calls = [1] ∧
    (main (env_of three_cd) ["cue2vorbis", "disc.cue", "4294967297"]).ret = 0 := by
  decide

/-! ## Lemmas on `main` -/

lemma mem_track_indices {n i : Int} : i ∈ track_indices n ↔ 1 ≤ i ∧ i ≤ n := by
  simp only [track_indices, List.mem_map, List.mem_range'_1]
  constructor
  · rintro ⟨k, ⟨h1, h2⟩, rfl⟩
    have : (Int.ofNat k : Int) = (k : Int) := rfl
    omega
  · rintro ⟨h1, h2⟩
    refine ⟨i.toNat, ⟨by omega, by omega⟩, ?_⟩
    have : (Int.ofNat i.toNat : Int) = ((i.toNat : Nat) : Int) := rfl
    rw [this]
    omega

/-- The indices up to `n`, cut at an index `k` among them. -/
lemma track_indices_split {n k : Int} (h1 : 1 ≤ k) (h2 : k ≤ n) :
    track_indices n = track_indices (k - 1) ++
      k :: (List.range' (k.toNat + 1) (n - k).toNat).map Int.ofNat := by
  have hn : n.toNat = (n - k).toNat + 1 + (k - 1).toNat := by omega
  have hk : (Int.ofNat (1 + (k - 1).toNat) : Int) = k := by
    have : (Int.ofNat (1 + (k - 1).toNat) : Int) = ((1 + (k - 1).toNat : Nat) : Int) := rfl
    rw [this]
    omega
  have hk2 : 1 + (k - 1).toNat + 1 = k.toNat + 1 := by omega
  simp only [track_indices]
  rw [hn, ← List.range'_append_1, List.range'_succ, List.map_append, List.map_cons, hk, hk2]

lemma blocks_nil (n : Int) (cd : Cd) : blocks n cd [] = [] := rfl

lemma blocks_cons (n : Int) (cd : Cd) (i : Int) (l : List Int) :
    blocks n cd (i :: l) = (print_track i n cd).out ++ blocks n cd l := by
  simp [blocks]

lemma blocks_append (n : Int) (cd : Cd) (l1 l2 : List Int) :
    blocks n cd (l1 ++ l2) = blocks n cd l1 ++ blocks n cd l2 := by
  simp [blocks]

/-- The loop over tracks that all resolve: every block is printed, the exit code is 0. -/
lemma print_all_ok (n : Int) (cd : Cd) (l : List Int)
    (h : ∀ i ∈ l, (print_track i n cd).ret = 0) :
    print_all n cd l = ⟨blocks n cd l, l, 0⟩ := by
  induction l with
  | nil => rfl
  | cons i l ih =>
    have hi : (print_track i n cd).ret = 0 := h i (List.mem_cons_self _ _)
    have hl := ih fun j hj => h j (List.mem_cons_of_mem _ hj)
    simp [print_all, hi, hl, blocks_cons]

/-- The loop stopped by the first track that does not resolve. -/
lemma print_all_abort (n : Int) (cd : Cd) (l1 l2 : List Int) (k : Int)
    (h : ∀ i ∈ l1, (print_track i n cd).ret = 0) (hk : (print_track k n cd).ret ≠ 0) :
    print_all n cd (l1 ++ k :: l2) =
      ⟨blocks n cd l1 ++ (print_track k n cd).out, l1 ++ [k], 1⟩ := by
  induction l1 with
  | nil => simp [print_all, hk, blocks_nil]
  | cons i l ih =>
    have hi : (print_track i n cd).ret = 0 := h i (List.mem_cons_self _ _)
    have hl := ih fun j hj => h j (List.mem_cons_of_mem _ hj)
    simp [print_all, hi, hl, blocks_cons]

/-- A call of `print_track` that returns non-zero has printed nothing and returned 1. -/
lemma print_track_failed {i n : Int} {cd : Cd} (h : (print_track i n cd).ret ≠ 0) :
    print_track i n cd = onerror := by
  rcases print_track_cases i n cd with h1 | ⟨t, dc, dr, tc, tr, -, -, -, -, -, h1⟩
  · exact h1
  · rw [h1] at h; simp at h

/-- The run of `main` without a track number, once the disc is loaded. -/
lemma main_all_tracks {env : Env} (prog : String) {fn : String} {f : FILE} {cd : Cd}
    (hf : env.fopen fn = some f) (hp : env.cue_parse_file f = some cd)
    (h0 : cd_get_ntrack cd ≠ 0) (hn : 0 ≤ cd_get_ntrack cd) :
    main env [prog, fn] =
      print_all (cd_get_ntrack cd) cd (track_indices (cd_get_ntrack cd)) := by
  have hlt : ¬ cd_get_ntrack cd < 0 := by omega
  simp [main, hf, hp, h0, hlt]

/-- The run of `main` with a track number, once the disc is loaded and the
tests of `main` on the number have passed. -/
lemma main_one_track {env : Env} (prog : String) {fn arg : String} {f : FILE} {cd : Cd}
    (hf : env.fopen fn = some f) (hp : env.cue_parse_file f = some cd)
    (ha : atoi arg ≠ 0) (h0 : cd_get_ntrack cd ≠ 0) (hle : atoi arg ≤ cd_get_ntrack cd) :
    main env [prog, fn, arg] =
      ⟨(print_track (atoi arg) (cd_get_ntrack cd) cd).out, [atoi arg],
        if (print_track (atoi arg) (cd_get_ntrack cd) cd).ret ≠ 0 then 1 else 0⟩ := by
  have hgt : ¬ cd_get_ntrack cd < atoi arg := by omega
  simp [main, hf, hp, ha, h0, hgt]

/-- The run of `main` with a track number that `main` refuses. -/
lemma main_rejected {env : Env} {prog fn arg : String}
    (h : atoi arg = 0 ∨ ∀ f cd, env.fopen fn = some f → env.cue_parse_file f = some cd →
      cd_get_ntrack cd < atoi arg) :
    main env [prog, fn, arg] = main_onerror := by
  rcases h with h | h
  · simp [main, h]
  · cases hf : env.fopen fn with
    | none => simp [main, hf]
    | some f =>
      cases hp : env.cue_parse_file f with
      | none => simp [main, hf, hp]
      | some cd =>
        have := h f cd hf hp
        simp [main, hf, hp, this]

/-- A call of `print_track` that returns 0 starts its block with the two header lines. -/
lemma header_of_ret_zero {i n : Int} {cd : Cd} (h : (print_track i n cd).ret = 0) :
    ∃ rest, (print_track i n cd).out =
      ⟨"TRACKNUMBER", fmt_d i⟩ :: ⟨"TRACKTOTAL", fmt_d n⟩ :: rest := by
  obtain ⟨t, dc, dr, tc, tr, h1, h2, h3, h4, h5⟩ := lookups_of_ret_zero h
  rw [print_track_of_lookups h1 h2 h3 h4 h5]
  exact ⟨_, rfl⟩

/-- A call of `print_track` that returns 0 prints one TRACKNUMBER line. -/
lemma tracknumber_of_ret_zero {i n : Int} {cd : Cd} (h : (print_track i n cd).ret = 0) :
    lines_with "TRACKNUMBER" (print_track i n cd).out = [⟨"TRACKNUMBER", fmt_d i⟩] := by
  obtain ⟨t, dc, dr, tc, tr, h1, h2, h3, h4, h5⟩ := lookups_of_ret_zero h
  rw [print_track_of_lookups h1 h2 h3 h4 h5, lines_with_tags]
  simp

/-- The TRACKNUMBER lines of a sequence of blocks that all resolve: one per block. -/
lemma tracknumber_of_blocks (n : Int) (cd : Cd) (l : List Int)
    (h : ∀ i ∈ l, (print_track i n cd).ret = 0) :
    lines_with "TRACKNUMBER" (blocks n cd l) = l.map fun i => ⟨"TRACKNUMBER", fmt_d i⟩ := by
  induction l with
  | nil => rfl
  | cons i l ih =>
    rw [blocks_cons, lines_with_append, tracknumber_of_ret_zero (h i (List.mem_cons_self _ _)),
      ih fun j hj => h j (List.mem_cons_of_mem _ hj)]
    rfl

lemma track_indices_natCast (N : Nat) :
    track_indices (N : Int) = (List.range' 1 N).map Int.ofNat := by
  simp [track_indices]

/-! ## The driver: modes and rejection -/

/-- C11 (all-tracks mode).  On a disc of `N ≥ 1` tracks on which `print_track`
returns 0 for every index from 1 to `N`, the run of `main` without a track
number prints exactly the blocks of `print_track 1 N`, ..., `print_track N N`
one after the other, calls `print_track` for 1, ..., `N` in that order, and
exits with 0; the TRACKNUMBER lines of the output are those of 1, ..., `N` in
that order (so there are `N` blocks), and the block of `i` starts with
`TRACKNUMBER=i`, `TRACKTOTAL=N`. -/
theorem all_tracks_mode (env : Env) (prog fn : String) (f : FILE) (cd : Cd) (N : Nat)
    (hf : env.fopen fn = some f) (hp : env.cue_parse_file f = some cd)
    (hN : cd_get_ntrack cd = (N : Int)) (h1 : 1 ≤ N)
    (hall : ∀ i : Int, 1 ≤ i → i ≤ N → (print_track i N cd).ret = 0) :
    (main env [prog, fn]).out = blocks N cd ((List.range' 1 N).map Int.ofNat) ∧
    (main env [prog, fn]).calls = (List.range' 1 N).map Int.ofNat ∧
    (main env [prog, fn]).ret = 0 ∧
    lines_with "TRACKNUMBER" (main env [prog, fn]).out =
      (List.range' 1 N).map (fun k => ⟨"TRACKNUMBER", fmt_d (Int.ofNat k)⟩) ∧
    ((List.range' 1 N).map Int.ofNat).length = N ∧
    ∀ i : Int, 1 ≤ i → i ≤ N → ∃ rest, (print_track i N cd).out =
      ⟨"TRACKNUMBER", fmt_d i⟩ :: ⟨"TRACKTOTAL", fmt_d N⟩ :: rest := by
  have h0 : cd_get_ntrack cd ≠ 0 := by omega
  have hn : 0 ≤ cd_get_ntrack cd := by omega
  have hall' : ∀ i ∈ track_indices (N : Int), (print_track i N cd).ret = 0 := fun i hi =>
    hall i (mem_track_indices.mp hi).1 (mem_track_indices.mp hi).2
  have hm := main_all_tracks prog hf hp h0 hn
  rw [hN, print_all_ok _ _ _ hall'] at hm
  rw [← track_indices_natCast, hm]
  refine ⟨rfl, rfl, rfl, ?_, ?_, ?_⟩
  · show lines_with "TRACKNUMBER" (blocks N cd _) = _
    rw [tracknumber_of_blocks _ _ _ hall', track_indices_natCast, List.map_map]
    rfl
  · simp [track_indices_natCast]
  · intro i hi1 hi2
    exact header_of_ret_zero (hall i hi1 hi2)

theorem all_tracks_mode_witness :
    (main (env_of three_cd) ["cue2vorbis", "disc.cue"]).out =
      blocks 3 three_cd [1, 2, 3] ∧
    (main (env_of three_cd) ["cue2vorbis", "disc.cue"]).calls = [1, 2, 3] ∧
    (main (env_of three_cd) ["cue2vorbis", "disc.cue"]).ret = 0 ∧
    lines_with "TRACKNUMBER" (main (env_of three_cd) ["cue2vorbis", "disc.cue"]).out =
      [⟨"TRACKNUMBER", "1"⟩, ⟨"TRACKNUMBER", "2"⟩, ⟨"TRACKNUMBER", "3"⟩] :=
  have h := all_tracks_mode (env_of three_cd) "cue2vorbis" "disc.cue" ⟨"disc.cue"⟩ three_cd 3
    rfl rfl rfl (by decide) (by
      intro i h1 h2
      have : i = 1 ∨ i = 2 ∨ i = 3 := by omega
      rcases this with h | h | h <;> subst h <;> decide)
  ⟨h.1, h.2.1, h.2.2.1, h.2.2.2.1⟩

/-- C12 (an out-of-range request is rejected).  The requested track index is
the `int` that `main` holds in `track_arg`, the conversion of the argument by
`atoi`.  On a disc the file parses to: for every argument whose index is 0 or
greater than the track count of the disc, `main` exits with 1, has made no call
of `print_track` and has printed no line; in particular this holds for the
decimal notation of every number from 0 to `INT_MAX` that is 0 or greater than
the track count. -/
theorem out_of_range_rejected (env : Env) (prog fn : String) (f : FILE) (cd : Cd)
    (hf : env.fopen fn = some f) (hp : env.cue_parse_file f = some cd) :
    (∀ arg : String, atoi arg = 0 ∨ atoi arg > cd_get_ntrack cd →
      (main env [prog, fn, arg]).ret = 1 ∧ (main env [prog, fn, arg]).calls = [] ∧
      (main env [prog, fn, arg]).out = []) ∧
    (∀ n : Nat, (n : Int) ≤ INT_MAX → n = 0 ∨ (n : Int) > cd_get_ntrack cd →
      (main env [prog, fn, toString n]).ret = 1 ∧
      (main env [prog, fn, toString n]).calls = [] ∧
      (main env [prog, fn, toString n]).out = []) := by
  have key : ∀ arg : String, atoi arg = 0 ∨ atoi arg > cd_get_ntrack cd →
      (main env [prog, fn, arg]).ret = 1 ∧ (main env [prog, fn, arg]).calls = [] ∧
      (main env [prog, fn, arg]).out = [] := by
    intro arg h
    have hm : main env [prog, fn, arg] = main_onerror := by
      apply main_rejected
      rcases h with h | h
      · exact Or.inl h
      · right
        intro f2 cd2 hf2 hp2
        rw [hf] at hf2
        cases hf2
        rw [hp] at hp2
        cases hp2
        exact h
    rw [hm]
    exact ⟨rfl, rfl, rfl⟩
  refine ⟨key, ?_⟩
  intro n hn h
  apply key
  rw [atoi_toString n hn]
  rcases h with h | h
  · left
    exact_mod_cast h
  · exact Or.inr h

theorem out_of_range_rejected_witness :
    atoi "4" = 4 ∧ cd_get_ntrack three_cd = 3 ∧
    (main (env_of three_cd) ["cue2vorbis", "disc.cue", "4"]).ret = 1 ∧
    (main (env_of three_cd) ["cue2vorbis", "disc.cue", "4"]).calls = [] ∧
    (main (env_of three_cd) ["cue2vorbis", "disc.cue", "4"]).out = [] :=
  ⟨by decide, by decide,
    (out_of_range_rejected (env_of three_cd) "cue2vorbis" "disc.cue" ⟨"disc.cue"⟩ three_cd
      rfl rfl).1 "4" (Or.inr (by decide))⟩

/-- C13 (the precondition of the resolver at the call site), evaluated where it
fails: with the argument "-3" on a disc of three tracks, `main` passes both of
its tests on the number (`-3` is not 0 and is not greater than 3) and calls
`print_track` with the track number -3, which is outside 1..3. -/
theorem negative_track_number_reaches_print_track :
    atoi "-3" = -3 ∧ cd_get_ntrack three_cd = 3 ∧
    (main (env_of three_cd) ["cue2vorbis", "disc.cue", "-3"]).calls = [-3] ∧
    ¬ (1 ≤ (-3 : Int) ∧ (-3 : Int) ≤ cd_get_ntrack three_cd) := by
  decide

/-- The exit code of the loop over tracks: 0 or 1, and 1 exactly when a call it
made returned non-zero. -/
lemma print_all_ret (n : Int) (cd : Cd) (l : List Int) :
    ((print_all n cd l).ret = 0 ∨ (print_all n cd l).ret = 1) ∧
    ((print_all n cd l).ret = 1 ↔
      ∃ i ∈ (print_all n cd l).calls, (print_track i n cd).ret ≠ 0) := by
  induction l with
  | nil => simp [print_all]
  | cons i l ih =>
    by_cases hi : (print_track i n cd).ret = 0
    · simp only [print_all, hi, ne_eq, not_true_eq_false, if_false, List.mem_cons,
        exists_eq_or_imp, false_or]
      exact ih
    · simp [print_all, hi]

lemma lookup_missing_iff (cd : Cd) (i : Int) : lookup_missing cd i ↔ ¬ lookups_ok cd i := by
  unfold lookup_missing lookups_ok
  cases h1 : cd_get_track cd i with
  | none => simp
  | some t =>
    cases h2 : cd_get_cdtext cd <;> cases h3 : cd_get_rem cd <;>
      cases h4 : track_get_cdtext t <;> cases h5 : track_get_rem t <;> simp [h4, h5]

lemma ret_zero_of_ok {i : Int} {cd : Cd} (n : Int) (h : lookups_ok cd i) :
    (print_track i n cd).ret = 0 := by
  obtain ⟨t, dc, dr, tc, tr, h1, h2, h3, h4, h5⟩ := lookups_of_ok h
  rw [print_track_of_lookups h1 h2 h3 h4 h5]

lemma ok_of_ret_zero {i n : Int} {cd : Cd} (h : (print_track i n cd).ret = 0) :
    lookups_ok cd i := by
  obtain ⟨t, dc, dr, tc, tr, h1, h2, h3, h4, h5⟩ := lookups_of_ret_zero h
  exact ⟨t, h1, by simp [h2], by simp [h3], by simp [h4], by simp [h5]⟩

/-! ## Error handling -/

/-- C14 (exit code).  With a parser that gives discs of a track count that is
not negative, the exit code of `main` is 0 or 1, and it is 1 exactly when one of
the listed conditions holds: wrong argument count, track-number argument that
converts to 0, file that cannot be opened, CUE sheet that cannot be parsed, disc
without tracks, requested track number above the track count, or a call of
`print_track` made by `main` that returned non-zero. -/
theorem exit_code (env : Env) (argv : List String)
    (hn : ∀ f cd, env.cue_parse_file f = some cd → 0 ≤ cd_get_ntrack cd) :
    ((main env argv).ret = 0 ∨ (main env argv).ret = 1) ∧
    ((main env argv).ret = 1 ↔ exit_one_condition env argv) := by
  rcases argv with _ | ⟨a, _ | ⟨b, _ | ⟨c, _ | ⟨d, rest⟩⟩⟩⟩
  · simp [main, exit_one_condition, main_onerror]
  · simp [main, exit_one_condition, main_onerror]
  · cases hf : env.fopen b with
    | none => simp [main, exit_one_condition, main_onerror, hf]
    | some f =>
      cases hp : env.cue_parse_file f with
      | none => simp [main, exit_one_condition, main_onerror, hf, hp]
      | some cd =>
        by_cases h0 : cd_get_ntrack cd = 0
        · simp [main, exit_one_condition, main_onerror, hf, hp, h0]
        · have hm := main_all_tracks a hf hp h0 (hn f cd hp)
          have hr := print_all_ret (cd_get_ntrack cd) cd (track_indices (cd_get_ntrack cd))
          rw [← hm] at hr
          refine ⟨hr.1, ?_⟩
          rw [hr.2]
          simp [exit_one_condition, hf, hp, h0]
  · by_cases ha : atoi c = 0
    · simp [main, exit_one_condition, main_onerror, ha]
    · cases hf : env.fopen b with
      | none => simp [main, exit_one_condition, main_onerror, hf]
      | some f =>
        cases hp : env.cue_parse_file f with
        | none => simp [main, exit_one_condition, main_onerror, hf, hp]
        | some cd =>
          by_cases h0 : cd_get_ntrack cd = 0
          · simp [main, exit_one_condition, main_onerror, hf, hp, h0]
          · by_cases hgt : atoi c > cd_get_ntrack cd
            · simp [main, exit_one_condition, main_onerror, hf, hp, h0, hgt]
            · have hm := main_one_track a hf hp ha h0 (not_lt.mp hgt)
              rw [hm]
              by_cases hr : (print_track (atoi c) (cd_get_ntrack cd) cd).ret = 0
              · simp [exit_one_condition, hf, hp, h0, ha, hgt, hm, hr]
              · simp [exit_one_condition, hf, hp, h0, ha, hgt, hm, hr]
  · have hlen : (a :: b :: c :: d :: rest).length > 3 := by simp
    have hm : main env (a :: b :: c :: d :: rest) = main_onerror := by
      simp only [main]
      rw [if_pos]
      right
      exact_mod_cast hlen
    rw [hm]
    exact ⟨Or.inr rfl, fun _ => Or.inl (Or.inr hlen), fun _ => rfl⟩

theorem exit_code_witness :
    (∀ f cd, (env_of broken_cd).cue_parse_file f = some cd → 0 ≤ cd_get_ntrack cd) ∧
    (main (env_of broken_cd) ["cue2vorbis", "disc.cue"]).ret = 1 ∧
    exit_one_condition (env_of broken_cd) ["cue2vorbis", "disc.cue"] ∧
    (main (env_of three_cd) ["cue2vorbis", "disc.cue", "4294967297"]).ret = 0 ∧
    ¬ exit_one_condition (env_of three_cd) ["cue2vorbis", "disc.cue", "4294967297"] :=
  have hn : ∀ c : Cd, 0 ≤ cd_get_ntrack c →
      ∀ f cd, (env_of c).cue_parse_file f = some cd → 0 ≤ cd_get_ntrack cd := by
    intro c hc f cd h
    have e : cd = c := by
      simp only [env_of, Option.some.injEq] at h
      exact h.symm
    subst e
    exact hc
  have hb := hn broken_cd (by decide)
  have ht := hn three_cd (by decide)
  have hr : (main (env_of broken_cd) ["cue2vorbis", "disc.cue"]).ret = 1 := by decide
  have hz : (main (env_of three_cd) ["cue2vorbis", "disc.cue", "4294967297"]).ret = 0 := by
    decide
  ⟨hb, hr, (exit_code (env_of broken_cd) ["cue2vorbis", "disc.cue"] hb).2.mp hr, hz,
    fun hc => absurd
      ((exit_code (env_of three_cd) ["cue2vorbis", "disc.cue", "4294967297"] ht).2.mpr hc)
      (by rw [hz]; decide)⟩

/-- C15 (failure of the resolver is structural, and atomic).  `print_track`
returns non-zero exactly when one of the five structure lookups (the track, the
CD-TEXT and REM blocks of the disc, the CD-TEXT and REM blocks of the track) is
missing; it then has printed no line at all and returns 1.  When the five are
available it returns 0, whatever fields are present. -/
theorem resolver_failure_structural (cd : Cd) (i n : Int) :
    ((print_track i n cd).ret ≠ 0 ↔ lookup_missing cd i) ∧
    (lookup_missing cd i → (print_track i n cd).out = [] ∧ (print_track i n cd).ret = 1) ∧
    (lookups_ok cd i ↔ ¬ lookup_missing cd i) ∧
    (lookups_ok cd i → (print_track i n cd).ret = 0) := by
  have hiff : (print_track i n cd).ret ≠ 0 ↔ lookup_missing cd i := by
    rw [lookup_missing_iff]
    exact ⟨fun h hok => h (ret_zero_of_ok n hok), fun h hr => h (ok_of_ret_zero hr)⟩
  refine ⟨hiff, ?_, ?_, ret_zero_of_ok n⟩
  · intro hm
    rw [print_track_failed (hiff.mpr hm)]
    exact ⟨rfl, rfl⟩
  · rw [lookup_missing_iff, not_not]

/-- C16 (abort, do not skip).  In the run of `main` without a track number on a
disc of `N` tracks, if `k` in 1..`N` is the first index for which `print_track`
returns non-zero, the output is exactly the blocks of the tracks 1, ..., `k - 1`
one after the other (its TRACKNUMBER lines are those of 1, ..., `k - 1`),
`print_track` has been called for 1, ..., `k` and for no later track, and the
exit code is 1. -/
theorem abort_not_skip (env : Env) (prog fn : String) (f : FILE) (cd : Cd) (k : Int)
    (hf : env.fopen fn = some f) (hp : env.cue_parse_file f = some cd)
    (hk1 : 1 ≤ k) (hk2 : k ≤ cd_get_ntrack cd)
    (hbefore : ∀ i : Int, 1 ≤ i → i < k → (print_track i (cd_get_ntrack cd) cd).ret = 0)
    (hfail : (print_track k (cd_get_ntrack cd) cd).ret ≠ 0) :
    (main env [prog, fn]).out = blocks (cd_get_ntrack cd) cd (track_indices (k - 1)) ∧
    lines_with "TRACKNUMBER" (main env [prog, fn]).out =
      (track_indices (k - 1)).map (fun i => ⟨"TRACKNUMBER", fmt_d i⟩) ∧
    (main env [prog, fn]).calls = track_indices (k - 1) ++ [k] ∧
    (main env [prog, fn]).ret = 1 := by
  have h0 : cd_get_ntrack cd ≠ 0 := by omega
  have hn : 0 ≤ cd_get_ntrack cd := by omega
  have hpre : ∀ i ∈ track_indices (k - 1), (print_track i (cd_get_ntrack cd) cd).ret = 0 :=
    fun i hi => hbefore i (mem_track_indices.mp hi).1 (by have := (mem_track_indices.mp hi).2; omega)
  have hm := main_all_tracks prog hf hp h0 hn
  rw [track_indices_split hk1 hk2, print_all_abort _ _ _ _ _ hpre hfail,
    print_track_failed hfail] at hm
  rw [hm]
  refine ⟨by simp [onerror], ?_, rfl, rfl⟩
  show lines_with "TRACKNUMBER" (blocks _ _ _ ++ onerror.out) = _
  rw [lines_with_append, tracknumber_of_blocks _ _ _ hpre]
  simp [onerror, lines_with]

theorem abort_not_skip_witness :
    (main (env_of broken_cd) ["cue2vorbis", "disc.cue"]).out =
      [⟨"TRACKNUMBER", "1"⟩, ⟨"TRACKTOTAL", "3"⟩, ⟨"TITLE", "a"⟩] ∧
    (main (env_of broken_cd) ["cue2vorbis", "disc.cue"]).calls = [1, 2] ∧
    (main (env_of broken_cd) ["cue2vorbis", "disc.cue"]).ret = 1 :=
  have h := abort_not_skip (env_of broken_cd) "cue2vorbis" "disc.cue" ⟨"disc.cue"⟩ broken_cd 2
    rfl rfl (by decide) (by decide) (by
      intro i h1 h2
      have : i = 1 := by omega
      subst this
      decide) (by decide)
  ⟨h.1.trans (by decide), h.2.2.1.trans (by decide), h.2.2.2⟩

/-! ## Empty values and argument parsing -/

/-- C17 (an empty string counts as present).  When `print_track` returns 0: for
a fallback row whose source field is the empty string at track scope, the one
line with the row's key has the empty value (the bytes `KEY=` and a newline),
and a non-empty value of the field at disc scope is not printed under that key;
and when the track's CD-TEXT UPC_ISRC is the empty string, the one ISRC line has
the empty value, and a non-empty ISRC attribute of the track is not printed. -/
theorem empty_string_is_present (cd : Cd) (i n : Int)
    (hret : (print_track i n cd).ret = 0) :
    (∀ row ∈ fallback_rows, track_scope cd i row.source = some "" →
      lines_with row.key (print_track i n cd).out = [⟨row.key, ""⟩] ∧
      TagLine.render ⟨row.key, ""⟩ = row.key ++ "=" ++ "" ++ "\n" ∧
      ∀ dv, disc_scope cd row.source = some dv → dv ≠ "" →
        (⟨row.key, dv⟩ : TagLine) ∉ (print_track i n cd).out) ∧
    (track_field cd i .PTI_UPC_ISRC = some "" →
      lines_with "ISRC" (print_track i n cd).out = [⟨"ISRC", ""⟩] ∧
      ∀ v, track_isrc cd i = some v → v ≠ "" →
        (⟨"ISRC", v⟩ : TagLine) ∉ (print_track i n cd).out) := by
  obtain ⟨t, dc, dr, tc, tr, h1, h2, h3, h4, h5⟩ := lookups_of_ret_zero hret
  have only : ∀ (k v : String) (out : List TagLine), lines_with k out = [⟨k, ""⟩] →
      v ≠ "" → (⟨k, v⟩ : TagLine) ∉ out := by
    intro k v out hl hv hmem
    have : (⟨k, v⟩ : TagLine) ∈ lines_with k out := mem_lines_with.mpr ⟨hmem, rfl⟩
    rw [hl] at this
    simp at this
    exact hv this
  constructor
  · intro row hrow ht
    have hl : lines_with row.key (print_track i n cd).out = [⟨row.key, ""⟩] := by
      rw [print_track_of_lookups h1 h2 h3 h4 h5, lines_with_fallback_row hrow,
        row_value_eq h1 h2 h3 h4 h5, ht]
      rfl
    exact ⟨hl, rfl, fun dv _ hdv => only _ _ _ hl hdv⟩
  · intro hu
    have hu' : cdtext_get .PTI_UPC_ISRC tc = some "" := by
      simpa [track_field, h1, h4] using hu
    have hl : lines_with "ISRC" (print_track i n cd).out = [⟨"ISRC", ""⟩] := by
      rw [print_track_of_lookups h1 h2 h3 h4 h5, lines_with_tags]
      simp [print_isrc, hu', print_if]
    exact ⟨hl, fun v _ hv => only _ _ _ hl hv⟩

theorem empty_string_is_present_witness :
    (print_track 1 1 empty_fields_cd).ret = 0 ∧
    track_scope empty_fields_cd 1 (.rem .REM_DATE) = some "" ∧
    disc_scope empty_fields_cd (.rem .REM_DATE) = some "D" ∧
    track_field empty_fields_cd 1 .PTI_UPC_ISRC = some "" ∧
    track_isrc empty_fields_cd 1 = some "I" ∧
    lines_with "DATE" (print_track 1 1 empty_fields_cd).out = [⟨"DATE", ""⟩] ∧
    (⟨"DATE", "D"⟩ : TagLine) ∉ (print_track 1 1 empty_fields_cd).out ∧
    lines_with "ISRC" (print_track 1 1 empty_fields_cd).out = [⟨"ISRC", ""⟩] ∧
    (⟨"ISRC", "I"⟩ : TagLine) ∉ (print_track 1 1 empty_fields_cd).out :=
  have h := empty_string_is_present empty_fields_cd 1 1 (by decide)
  have hrow := h.1 ⟨"DATE", .rem .REM_DATE⟩ (by decide) (by decide)
  have hisrc := h.2 (by decide)
  ⟨by decide, by decide, by decide, by decide, by decide,
    hrow.1, hrow.2.2 "D" (by decide) (by decide),
    hisrc.1, hisrc.2 "I" (by decide) (by decide)⟩

/-- C18, where it fails: the argument "2x" is not the decimal notation of a
positive integer, `atoi` converts it to 2, and on a disc of three tracks `main`
calls `print_track` for track 2, prints its block and exits with 0. -/
theorem trailing_text_accepted :
    ¬ positive_decimal "2x" ∧ atoi "2x" = 2 ∧
    (main (env_of three_cd) ["cue2vorbis", "disc.cue", "2x"]).ret = 0 ∧
    (main (env_of three_cd) ["cue2vorbis", "disc.cue", "2x"]).calls = [2] ∧
    (main (env_of three_cd) ["cue2vorbis", "disc.cue", "2x"]).out =
      [⟨"TRACKNUMBER", "2"⟩, ⟨"TRACKTOTAL", "3"⟩, ⟨"TITLE", "b"⟩] := by
  refine ⟨?_, by decide, by decide, by decide, by decide⟩
  intro h
  exact absurd h.2.1 (by decide)

/-- C18 as amended (track-number argument parsing).  `main` converts the
argument with `atoi` and tests the result against 0.
(1) An argument that `atoi` converts to 0 is rejected: exit code 1, no call of
`print_track`, no line printed, whatever the file and the disc.  Among these
arguments are (2) every text that does not start with white space, a sign or a
digit, the empty text included, and (3) every text made of white space (maybe
none), the decimal notation of 0 and a rest that does not start with a digit.
(4) A text made of white space (maybe none), the decimal notation of a number
`n` from 1 to `INT_MAX` and a rest that does not start with a digit is read as
track `n`: on a disc of at least `n` tracks `main` calls `print_track` once, for
`n`, prints its block, and exits with 0 when that call returns 0 and 1
otherwise. -/
theorem track_number_parsing (env : Env) (prog fn : String) :
    (∀ arg : String, atoi arg = 0 → main env [prog, fn, arg] = ⟨[], [], 1⟩) ∧
    (∀ arg : String,
      (∀ c, arg.toList.head? = some c →
        isspace c = false ∧ c.toNat ≠ 45 ∧ c.toNat ≠ 43 ∧ c.isDigit = false) →
      main env [prog, fn, arg] = ⟨[], [], 1⟩) ∧
    (∀ ws rest : String, (∀ c ∈ ws.toList, isspace c = true) →
      (∀ c, rest.toList.head? = some c → c.isDigit = false) →
      main env [prog, fn, ws ++ toString 0 ++ rest] = ⟨[], [], 1⟩) ∧
    (∀ (ws rest : String) (n : Nat) (f : FILE) (cd : Cd),
      (∀ c ∈ ws.toList, isspace c = true) →
      (∀ c, rest.toList.head? = some c → c.isDigit = false) →
      1 ≤ n → (n : Int) ≤ INT_MAX →
      env.fopen fn = some f → env.cue_parse_file f = some cd →
      (n : Int) ≤ cd_get_ntrack cd →
      atoi (ws ++ toString n ++ rest) = (n : Int) ∧
      main env [prog, fn, ws ++ toString n ++ rest] =
        ⟨(print_track n (cd_get_ntrack cd) cd).out, [(n : Int)],
          if (print_track n (cd_get_ntrack cd) cd).ret ≠ 0 then 1 else 0⟩) := by
  have zero : ∀ arg : String, atoi arg = 0 → main env [prog, fn, arg] = ⟨[], [], 1⟩ :=
    fun arg h => main_rejected (Or.inl h)
  refine ⟨zero, fun arg h => zero arg (atoi_no_number arg h), ?_, ?_⟩
  · intro ws rest hws hrest
    apply zero
    have h := atoi_decimal ws rest 0 hws hrest (by decide)
    simpa using h
  · intro ws rest n f cd hws hrest h1 hn hf hp hle
    have ha := atoi_decimal ws rest n hws hrest hn
    have hne : atoi (ws ++ toString n ++ rest) ≠ 0 := by rw [ha]; omega
    have h0 : cd_get_ntrack cd ≠ 0 := by omega
    have hm := main_one_track prog hf hp hne h0 (by rw [ha]; exact hle)
    rw [ha] at hm
    exact ⟨ha, hm⟩

theorem track_number_parsing_witness :
    main (env_of three_cd) ["cue2vorbis", "disc.cue", "abc"] = ⟨[], [], 1⟩ ∧
    main (env_of three_cd) ["cue2vorbis", "disc.cue", "0"] = ⟨[], [], 1⟩ ∧
    " " ++ toString 2 ++ "x" = " 2x" ∧
    main (env_of three_cd) ["cue2vorbis", "disc.cue", " " ++ toString 2 ++ "x"] =
      ⟨(print_track 2 3 three_cd).out, [2],
        if (print_track 2 3 three_cd).ret ≠ 0 then 1 else 0⟩ :=
  have h := track_number_parsing (env_of three_cd) "cue2vorbis" "disc.cue"
  ⟨h.2.1 "abc" (by decide), h.2.2.1 "" "" (by decide) (by decide), by decide,
    (h.2.2.2 " " "x" 2 ⟨"disc.cue"⟩ three_cd (by decide) (by decide) (by decide) (by decide)
      rfl rfl (by decide)).2⟩

/-! ## Independence of the tracks -/

lemma cdtext_ext {c1 c2 : Cdtext} (h : ∀ p, cdtext_get p c1 = cdtext_get p c2) : c1 = c2 := by
  cases c1
  cases c2
  congr
  funext p
  exact h p

lemma rem_ext {r1 r2 : Rem} (h : ∀ r, rem_get r r1 = rem_get r r2) : r1 = r2 := by
  cases r1
  cases r2
  congr
  funext r
  exact h r

/-- Discs that agree at disc scope give the same answers to `cd_get_cdtext` and `cd_get_rem`. -/
lemma disc_lookups_eq {cd1 cd2 : Cd} (h : same_disc_scope cd1 cd2) :
    cd_get_cdtext cd1 = cd_get_cdtext cd2 ∧ cd_get_rem cd1 = cd_get_rem cd2 := by
  obtain ⟨ha, hb, hc, hd⟩ := h
  constructor
  · cases h1 : cd_get_cdtext cd1 <;> cases h2 : cd_get_cdtext cd2 <;>
      simp [h1, h2] at ha ⊢
    apply cdtext_ext
    intro p
    have := hc p
    simpa [disc_field, h1, h2] using this
  · cases h1 : cd_get_rem cd1 <;> cases h2 : cd_get_rem cd2 <;>
      simp [h1, h2] at hb ⊢
    apply rem_ext
    intro r
    have := hd r
    simpa [disc_rem, h1, h2] using this

/-- Discs with the same structure and the same data at track `i` give the same
answer to `cd_get_track` for `i`. -/
lemma track_lookup_eq {cd1 cd2 : Cd} {i : Int} (hs : same_track_structure cd1 cd2 i)
    (hd : same_track_fields cd1 cd2 i) : cd_get_track cd1 i = cd_get_track cd2 i := by
  obtain ⟨ha, hb, hc⟩ := hs
  obtain ⟨hp, hr, hi⟩ := hd
  cases h1 : cd_get_track cd1 i with
  | none =>
    cases h2 : cd_get_track cd2 i with
    | none => rfl
    | some t2 => simp [h1, h2] at ha
  | some t1 =>
    cases h2 : cd_get_track cd2 i with
    | none => simp [h1, h2] at ha
    | some t2 =>
      simp only [h1, h2, Option.some_bind] at hb hc
      simp only [track_isrc, h1, h2, Option.some_bind, track_get_isrc] at hi
      have e1 : t1.cdtext = t2.cdtext := by
        cases h3 : track_get_cdtext t1 <;> cases h4 : track_get_cdtext t2 <;>
          simp [h3, h4] at hb
        · simp only [track_get_cdtext] at h3 h4
          rw [h3, h4]
        · rename_i c1 c2
          have : c1 = c2 := cdtext_ext fun p => by
            have := hp p
            simpa [track_field, h1, h2, h3, h4] using this
          simp only [track_get_cdtext] at h3 h4
          rw [h3, h4, this]
      have e2 : t1.rem = t2.rem := by
        cases h3 : track_get_rem t1 <;> cases h4 : track_get_rem t2 <;>
          simp [h3, h4] at hc
        · simp only [track_get_rem] at h3 h4
          rw [h3, h4]
        · rename_i r1 r2
          have : r1 = r2 := rem_ext fun r => by
            have := hr r
            simpa [track_rem, h1, h2, h3, h4] using this
          simp only [track_get_rem] at h3 h4
          rw [h3, h4, this]
      cases t1
      cases t2
      simp only at e1 e2 hi
      rw [e1, e2, hi]

/-- The result of `print_track` is a function of the three objects it looks up on the disc. -/
lemma print_track_congr {cd1 cd2 : Cd} {i : Int} (n : Int)
    (ht : cd_get_track cd1 i = cd_get_track cd2 i)
    (hc : cd_get_cdtext cd1 = cd_get_cdtext cd2) (hr : cd_get_rem cd1 = cd_get_rem cd2) :
    print_track i n cd1 = print_track i n cd2 := by
  simp only [print_track, ht, hc, hr]

/-- The structure lookups succeed on both discs or on neither, when the discs
have the same structure. -/
lemma lookups_ok_congr {cd1 cd2 : Cd} {i : Int} (hd : same_disc_scope cd1 cd2)
    (hs : same_track_structure cd1 cd2 i) : lookups_ok cd1 i ↔ lookups_ok cd2 i := by
  obtain ⟨hc, hr⟩ := disc_lookups_eq hd
  obtain ⟨ha, hb, hc'⟩ := hs
  unfold lookups_ok
  rw [hc, hr]
  cases h1 : cd_get_track cd1 i <;> cases h2 : cd_get_track cd2 i <;>
    simp [h1, h2] at ha hb hc' ⊢
  rw [hb, hc']
  exact fun _ _ => Iff.rfl

lemma ret_congr {cd1 cd2 : Cd} {i : Int} (n : Int) (hd : same_disc_scope cd1 cd2)
    (hs : same_track_structure cd1 cd2 i) :
    (print_track i n cd1).ret = (print_track i n cd2).ret := by
  have hiff := lookups_ok_congr hd hs
  by_cases h : lookups_ok cd1 i
  · rw [ret_zero_of_ok n h, ret_zero_of_ok n (hiff.mp h)]
  · have h1 : (print_track i n cd1).ret ≠ 0 := fun hr => h (ok_of_ret_zero hr)
    have h2 : (print_track i n cd2).ret ≠ 0 := fun hr => h (hiff.mpr (ok_of_ret_zero hr))
    rw [print_track_failed h1, print_track_failed h2]

/-- The output of the loop over tracks is the blocks of the calls it made. -/
lemma print_all_out (n : Int) (cd : Cd) (l : List Int) :
    (print_all n cd l).out = blocks n cd (print_all n cd l).calls := by
  induction l with
  | nil => rfl
  | cons i l ih =>
    by_cases hi : (print_track i n cd).ret = 0
    · simp [print_all, hi, blocks_cons, ih]
    · simp [print_all, hi, blocks_cons, blocks_nil]

/-- The calls and the exit code of the loop over tracks depend only on which
calls of `print_track` return 0. -/
lemma print_all_calls_congr (n : Int) (cd1 cd2 : Cd) (l : List Int)
    (h : ∀ i ∈ l, (print_track i n cd1).ret = (print_track i n cd2).ret) :
    (print_all n cd1 l).calls = (print_all n cd2 l).calls ∧
    (print_all n cd1 l).ret = (print_all n cd2 l).ret := by
  induction l with
  | nil => exact ⟨rfl, rfl⟩
  | cons i l ih =>
    have hi := h i (List.mem_cons_self _ _)
    have hl := ih fun j hj => h j (List.mem_cons_of_mem _ hj)
    by_cases h1 : (print_track i n cd1).ret = 0
    · have h2 : (print_track i n cd2).ret = 0 := by rw [← hi]; exact h1
      simp [print_all, h1, h2, hl.1, hl.2]
    · have h2 : ¬ (print_track i n cd2).ret = 0 := by rw [← hi]; exact h1
      simp [print_all, h1, h2]

/-- The run of `main` without a track number, once the disc is loaded: the
exit through `onerror` or the loop over the tracks. -/
lemma main_all_tracks_cases {env : Env} (prog : String) {fn : String} {f : FILE} {cd : Cd}
    (hf : env.fopen fn = some f) (hp : env.cue_parse_file f = some cd) :
    main env [prog, fn] =
      if cd_get_ntrack cd = 0 ∨ cd_get_ntrack cd < 0 then main_onerror
      else print_all (cd_get_ntrack cd) cd (track_indices (cd_get_ntrack cd)) := by
  by_cases h0 : cd_get_ntrack cd = 0
  · simp [main, hf, hp, h0]
  · by_cases hlt : cd_get_ntrack cd < 0
    · simp [main, hf, hp, h0, hlt]
    · simp [main, hf, hp, h0, hlt]

/-- C19 (per-track independence).  Take two discs that agree at disc scope.
(1) If they have the same structure and the same data at track `i` (CD-TEXT
fields, REM fields, ISRC attribute), `print_track` for `i` gives the same output
and the same return code on both, whatever their other tracks are.  (2) If they
have the same track count `N`, the same structure at every track 1..`N`, and
the same data at every track of 1..`N` but `j`, the runs of `main` without a track number make the
same calls of `print_track` and exit with the same code, the output of each is
the sequence of the blocks of those calls, and the block of every track but `j`
is the same on both discs: only the block of `j` can differ. -/
theorem per_track_independence (cd1 cd2 : Cd) (hd : same_disc_scope cd1 cd2) :
    (∀ i n : Int, same_track_structure cd1 cd2 i → same_track_fields cd1 cd2 i →
      print_track i n cd1 = print_track i n cd2) ∧
    (∀ (env1 env2 : Env) (prog1 prog2 fn1 fn2 : String) (f1 f2 : FILE) (j : Int),
      env1.fopen fn1 = some f1 → env1.cue_parse_file f1 = some cd1 →
      env2.fopen fn2 = some f2 → env2.cue_parse_file f2 = some cd2 →
      cd_get_ntrack cd1 = cd_get_ntrack cd2 →
      (∀ i, 1 ≤ i → i ≤ cd_get_ntrack cd1 → same_track_structure cd1 cd2 i) →
      (∀ i, 1 ≤ i → i ≤ cd_get_ntrack cd1 → i ≠ j → same_track_fields cd1 cd2 i) →
      (main env1 [prog1, fn1]).calls = (main env2 [prog2, fn2]).calls ∧
      (main env1 [prog1, fn1]).ret = (main env2 [prog2, fn2]).ret ∧
      (main env1 [prog1, fn1]).out =
        blocks (cd_get_ntrack cd1) cd1 (main env1 [prog1, fn1]).calls ∧
      (main env2 [prog2, fn2]).out =
        blocks (cd_get_ntrack cd1) cd2 (main env1 [prog1, fn1]).calls ∧
      ∀ i, 1 ≤ i → i ≤ cd_get_ntrack cd1 → i ≠ j →
        print_track i (cd_get_ntrack cd1) cd1 = print_track i (cd_get_ntrack cd1) cd2) := by
  have hdisc := disc_lookups_eq hd
  have part1 : ∀ i n : Int, same_track_structure cd1 cd2 i → same_track_fields cd1 cd2 i →
      print_track i n cd1 = print_track i n cd2 := fun i n hs hf =>
    print_track_congr n (track_lookup_eq hs hf) hdisc.1 hdisc.2
  refine ⟨part1, ?_⟩
  intro env1 env2 prog1 prog2 fn1 fn2 f1 f2 j hf1 hp1 hf2 hp2 hN hs hfields
  have hother : ∀ i, 1 ≤ i → i ≤ cd_get_ntrack cd1 → i ≠ j →
      print_track i (cd_get_ntrack cd1) cd1 = print_track i (cd_get_ntrack cd1) cd2 :=
    fun i h1 h2 hi => part1 i _ (hs i h1 h2) (hfields i h1 h2 hi)
  have hm1 := main_all_tracks_cases prog1 hf1 hp1
  have hm2 := main_all_tracks_cases prog2 hf2 hp2
  rw [← hN] at hm2
  by_cases hbad : cd_get_ntrack cd1 = 0 ∨ cd_get_ntrack cd1 < 0
  · rw [if_pos hbad] at hm1 hm2
    rw [hm1, hm2]
    exact ⟨rfl, rfl, rfl, rfl, hother⟩
  · rw [if_neg hbad] at hm1 hm2
    have hc := print_all_calls_congr (cd_get_ntrack cd1) cd1 cd2
      (track_indices (cd_get_ntrack cd1)) fun i hi =>
        ret_congr _ hd (hs i (mem_track_indices.mp hi).1 (mem_track_indices.mp hi).2)
    rw [hm1, hm2]
    refine ⟨hc.1, hc.2, print_all_out _ _ _, ?_, hother⟩
    rw [hc.1]
    exact print_all_out _ _ _

theorem per_track_independence_witness :
    print_track 1 3 three_cd = print_track 1 3 three_cd_alt ∧
    print_track 2 3 three_cd ≠ print_track 2 3 three_cd_alt ∧
    print_track 3 3 three_cd = print_track 3 3 three_cd_alt ∧
    (main (env_of three_cd) ["cue2vorbis", "disc.cue"]).calls =
      (main (env_of three_cd_alt) ["cue2vorbis", "disc.cue"]).calls ∧
    (main (env_of three_cd) ["cue2vorbis", "disc.cue"]).ret =
      (main (env_of three_cd_alt) ["cue2vorbis", "disc.cue"]).ret :=
  have hd : same_disc_scope three_cd three_cd_alt := ⟨rfl, rfl, fun _ => rfl, fun _ => rfl⟩
  have h := (per_track_independence three_cd three_cd_alt hd).1
  have hs : ∀ i : Int, 1 ≤ i → i ≤ cd_get_ntrack three_cd →
      same_track_structure three_cd three_cd_alt i := by
    intro i h1 h2
    have h3 : i ≤ 3 := h2
    have : i = 1 ∨ i = 2 ∨ i = 3 := by omega
    rcases this with e | e | e <;> subst e <;> exact ⟨rfl, rfl, rfl⟩
  have hf : ∀ i : Int, 1 ≤ i → i ≤ cd_get_ntrack three_cd → i ≠ 2 →
      same_track_fields three_cd three_cd_alt i := by
    intro i h1 h2 hne
    have h3 : i ≤ 3 := h2
    have : i = 1 ∨ i = 3 := by omega
    rcases this with e | e <;> subst e <;> exact ⟨fun _ => rfl, fun _ => rfl, rfl⟩
  have hm := (per_track_independence three_cd three_cd_alt hd).2
    (env_of three_cd) (env_of three_cd_alt) "cue2vorbis" "cue2vorbis" "disc.cue" "disc.cue"
    ⟨"disc.cue"⟩ ⟨"disc.cue"⟩ 2 rfl rfl rfl rfl rfl hs hf
  ⟨h 1 3 ⟨rfl, rfl, rfl⟩ ⟨fun _ => rfl, fun _ => rfl, rfl⟩, by decide,
    h 3 3 ⟨rfl, rfl, rfl⟩ ⟨fun _ => rfl, fun _ => rfl, rfl⟩, hm.1, hm.2.1⟩

end Cue2Vorbis
